import Mathlib

/-!
# wireguard-ui: configuration rendering, interface detection and service control

A shallow embedding of the Go sources `db/db.go`, `config/config.go`,
`netutil/iface.go`, `wireguard/generator.go`, `wireguard/keys.go`,
`handlers/wg.go` and `handlers/config.go`, followed by theorems about them.

Conventions of the embedding:
* a Go `string` is a Lean `String`, a `*string` is an `Option String`, a Go `int` is an `Int`;
* a Go `error` is kept as its message;
* `fmt.Sprintf` with `%s` and `%d` verbs is string concatenation (`%d` is `toString` on `Int`);
* the external world (processes, environment variables, database and filesystem faults) is an
  explicit `Env`, the mutable world (tables, files, invoked commands) an explicit `World`.
-/

namespace WireguardUI

/-- A Go `error`, kept as its message. -/
abbrev Error := String

/-! ## db/db.go -/

/-- The row type `db.Server`. -/
structure Server where
  UUID : String
  PublicIP : String
  Port : Int
  EnableIPv6 : Bool
  SubnetV4 : String
  SubnetV6 : String
  PrivateKey : String
  PublicKey : String
deriving DecidableEq, Repr, Inhabited

/-- The row type `db.Peer`. -/
structure Peer where
  UUID : String
  IPv4 : Option String
  IPv6 : Option String
  PrivateKey : String
  PublicKey : String
  Name : Option String
deriving DecidableEq, Repr, Inhabited

/-- The zero value of `db.Server` (what `var s db.Server` holds before a query fills it). -/
def Server.zero : Server :=
  ⟨"", "", 0, false, "", "", "", ""⟩

/-- The zero value of `db.Peer`. -/
def Peer.zero : Peer :=
  ⟨"", none, none, "", "", none⟩

/-! ## config/config.go -/

/-- The fields of `config.Config` that the tunnel core reads. -/
structure Config where
  WGConfDir : String
  WGClientsDir : String
  WGExternalIF : String
  WGInterface : String
  WGMode : String
deriving DecidableEq, Repr

def DefaultWGConfDir : String := "/etc/amnezia/amneziawg"
def DefaultWGClientsDir : String := "/etc/amnezia/amneziawg/clients"
def DefaultWGExternalIF : String := ""
def DefaultWGInterface : String := "awg0"
def DefaultWGMode : String := "awg"

/-- The function `getEnvOrDefault`; `getenv` is `os.Getenv` (empty when the variable is unset). -/
def getEnvOrDefault (getenv : String → String) (key defaultValue : String) : String :=
  let value := getenv key
  if value = "" then defaultValue else value

/-- The function `config.LoadConfig`, restricted to the `WG_*` fields. -/
def LoadConfig (getenv : String → String) : Config :=
  { WGConfDir := getEnvOrDefault getenv "WG_CONF_DIR" DefaultWGConfDir
    WGClientsDir := getEnvOrDefault getenv "WG_CLIENTS_DIR" DefaultWGClientsDir
    WGExternalIF := getEnvOrDefault getenv "WG_EXTERNAL_IF" DefaultWGExternalIF
    WGInterface := getEnvOrDefault getenv "WG_INTERFACE" DefaultWGInterface
    WGMode := getEnvOrDefault getenv "WG_MODE" DefaultWGMode }

/-! ## wireguard/generator.go: the rendered text -/

/-- The function `valOrEmpty`. -/
def valOrEmpty : Option String → String
  | none => ""
  | some v => v

/-- The Go test `v != nil && *v != ""` on a `*string`. -/
def nonEmptyPtr : Option String → Bool
  | none => false
  | some v => v != ""

/-- The Go call `strings.Contains(s, substr)`: some suffix of `s` starts with `substr`. -/
def stringsContains (s substr : String) : Bool :=
  s.data.tails.any (fun t => substr.data.isPrefixOf t)

/-- The twelve `PostUp`/`PostDown` statements of `GenerateServerConfig` (lines 47-58), the last
one carrying the blank line that ends the interface section. -/
def natRules (extIF : String) : String :=
  "PostUp   = iptables -A FORWARD -i %i -j ACCEPT\n"
  ++ "PostUp   = iptables -A FORWARD -o %i -j ACCEPT\n"
  ++ ("PostUp   = iptables -t nat -A POSTROUTING -o " ++ extIF ++ " -j MASQUERADE\n")
  ++ "PostUp   = ip6tables -A FORWARD -i %i -j ACCEPT\n"
  ++ "PostUp   = ip6tables -A FORWARD -o %i -j ACCEPT\n"
  ++ ("PostUp   = ip6tables -t nat -A POSTROUTING -o " ++ extIF ++ " -j MASQUERADE\n")
  ++ "PostDown = iptables -D FORWARD -i %i -j ACCEPT\n"
  ++ "PostDown = iptables -D FORWARD -o %i -j ACCEPT\n"
  ++ ("PostDown = iptables -t nat -D POSTROUTING -o " ++ extIF ++ " -j MASQUERADE\n")
  ++ "PostDown = ip6tables -D FORWARD -i %i -j ACCEPT\n"
  ++ "PostDown = ip6tables -D FORWARD -o %i -j ACCEPT\n"
  ++ ("PostDown = ip6tables -t nat -D POSTROUTING -o " ++ extIF ++ " -j MASQUERADE\n\n")

/-- The value of `content` in `GenerateServerConfig` when the peer loop is reached (lines 36-61);
`extIF` is the resolved external interface, empty when none is known. -/
def serverInterfaceSection (extIF : String) (s : Server) : String :=
  let content := "[Interface]\n"
  let content :=
    if s.EnableIPv6 then
      content ++ ("Address = " ++ s.SubnetV4 ++ "\n") ++ ("Address = " ++ s.SubnetV6 ++ "\n")
    else
      content ++ ("Address = " ++ s.SubnetV4 ++ "\n")
  let content := content ++ ("ListenPort = " ++ toString s.Port ++ "\n")
  let content := content ++ ("PrivateKey = " ++ s.PrivateKey ++ "\n")
  if extIF != "" then
    content ++ natRules extIF
  else
    content ++ "\n"

/-- What one iteration of the peer loop of `GenerateServerConfig` appends (lines 64-72). -/
def peerBlock (p : Peer) : String :=
  let block := "[Peer]\n"
  let block := block ++ ("PublicKey = " ++ p.PublicKey ++ "\n")
  if nonEmptyPtr p.IPv6 then
    block ++ ("AllowedIPs = " ++ valOrEmpty p.IPv4 ++ "\n")
      ++ ("AllowedIPs = " ++ valOrEmpty p.IPv6 ++ "\n\n")
  else
    block ++ ("AllowedIPs = " ++ valOrEmpty p.IPv4 ++ "\n\n")

/-- The text that `GenerateServerConfig` writes (lines 36-73): the interface section, then the
peer loop appending to `content` in the order of `peers`. -/
def serverContent (extIF : String) (s : Server) (peers : List Peer) : String :=
  peers.foldl (fun content p => content ++ peerBlock p) (serverInterfaceSection extIF s)

/-- The `[Interface]` section of `GeneratePeerConfig` (lines 85-93). -/
def peerInterfaceSection (s : Server) (p : Peer) : String :=
  let content := "[Interface]\n"
  let content := content ++ ("PrivateKey = " ++ p.PrivateKey ++ "\n")
  let content :=
    if s.EnableIPv6 && nonEmptyPtr p.IPv6 then
      content ++ ("Address = " ++ valOrEmpty p.IPv4 ++ ", " ++ valOrEmpty p.IPv6 ++ "\n")
    else
      content ++ ("Address = " ++ valOrEmpty p.IPv4 ++ "\n")
  content ++ "MTU = 1420\n\n"

/-- The variable `endpointIP` of `GeneratePeerConfig` (lines 97-102). -/
def endpointIP (s : Server) : String :=
  if stringsContains s.PublicIP ":" then "[" ++ s.PublicIP ++ "]" else s.PublicIP

/-- The `[Peer]` section of `GeneratePeerConfig` (lines 95-110). -/
def peerServerSection (s : Server) : String :=
  let content := "[Peer]\n"
  let content := content ++ ("PublicKey = " ++ s.PublicKey ++ "\n")
  let content := content ++ ("Endpoint = " ++ endpointIP s ++ ":" ++ toString s.Port ++ "\n")
  if s.EnableIPv6 && s.SubnetV6 != "" then
    content ++ ("AllowedIPs = " ++ s.SubnetV4 ++ "\n") ++ ("AllowedIPs = " ++ s.SubnetV6 ++ "\n")
  else
    content ++ ("AllowedIPs = " ++ s.SubnetV4 ++ "\n")

/-- The text that `GeneratePeerConfig` writes (lines 85-110). -/
def peerContent (s : Server) (p : Peer) : String :=
  peerInterfaceSection s p ++ peerServerSection s

/-! ## netutil/iface.go -/

/-- The Go predicate `unicode.IsSpace`. -/
def isSpace (c : Char) : Bool :=
  let n := c.toNat
  (0x09 ≤ n && n ≤ 0x0d) || n == 0x20 || n == 0x85 || n == 0xa0 || n == 0x1680
    || (0x2000 ≤ n && n ≤ 0x200a) || n == 0x2028 || n == 0x2029 || n == 0x202f
    || n == 0x205f || n == 0x3000

/-- The scan of `strings.Fields`: `cur` is the field being read. -/
def fieldsGo : List Char → List Char → List String
  | [], cur => if cur = [] then [] else [String.mk cur]
  | c :: cs, cur =>
    if isSpace c then
      if cur = [] then fieldsGo cs [] else String.mk cur :: fieldsGo cs []
    else fieldsGo cs (cur ++ [c])

/-- The Go call `strings.Fields(s)`: the maximal runs of non-space characters, in order. -/
def Fields (s : String) : List String :=
  fieldsGo s.data []

/-- The Go call `strings.TrimSpace(s)`. -/
def TrimSpace (s : String) : String :=
  String.mk ((s.data.dropWhile isSpace).rdropWhile isSpace)

/-- The loop `for i := 0; i < len(parts)-1; i++` of `DetectDefaultInterface` (lines 19-23): the
element after the first `dev` that has a successor. -/
def findDev : List String → Option String
  | a :: b :: rest => if a = "dev" then some b else findDev (b :: rest)
  | _ => none

/-! ### The outside world -/

/-- The outcome of running an external command: captured standard output and standard error,
and the error of `cmd.Run`/`cmd.Output` (non-zero exit or failure to start), if any. -/
structure ProcResult where
  stdout : String
  stderr : String
  err : Option Error
deriving DecidableEq, Repr

/-- An access to the outside world that leaves a record: a process started with
`exec.Command(name, args...)` and the given standard input, or a file opened for reading. -/
inductive Event where
  | exec (name : String) (args : List String) (stdin : String)
  | openFile (path : String)
deriving DecidableEq, Repr

/-- The two arguments of a call `filepath.Join(dir, name)`, kept as a pair. The disk and the
filesystem calls are keyed by the pair; the path that the call returns is `Path.real`, and two
pairs stand for two files only where their real paths differ. -/
structure Path where
  dir : String
  name : String
deriving DecidableEq, Repr

/-- The elements of a path: the pieces between separators, empty ones included. -/
def pathElements : List Char → List (List Char)
  | [] => [[]]
  | c :: cs =>
    if c = '/' then [] :: pathElements cs
    else
      match pathElements cs with
      | [] => [[c]]
      | el :: els => (c :: el) :: els

/-- The elements that `filepath.Clean` keeps, the last one first in `kept`: empty and `.`
elements are dropped; a `..` element removes the element before it when that is not itself
`..`, is dropped at the root of a rooted path, and is kept otherwise. -/
def cleanElements (rooted : Bool) : List (List Char) → List (List Char) → List (List Char)
  | [], kept => kept.reverse
  | el :: els, kept =>
    if el = [] ∨ el = ['.'] then cleanElements rooted els kept
    else if el = ['.', '.'] then
      match kept with
      | top :: below =>
        if top = ['.', '.'] then cleanElements rooted els (el :: kept)
        else cleanElements rooted els below
      | [] => if rooted then cleanElements rooted els [] else cleanElements rooted els [el]
    else cleanElements rooted els (el :: kept)

/-- The elements written one after the other with a separator between them. -/
def joinElements : List (List Char) → List Char
  | [] => []
  | [el] => el
  | el :: more :: els => el ++ '/' :: joinElements (more :: els)

/-- The Go function `filepath.Clean` on Unix: the shortest path that names the same file by
lexical processing alone; `.` for the empty path. -/
def filepathClean (path : String) : String :=
  if path = "" then "."
  else
    let rooted := path.data.head? = some '/'
    let kept := cleanElements rooted (pathElements path.data) []
    if rooted then String.mk ('/' :: joinElements kept)
    else if kept = [] then "."
    else String.mk (joinElements kept)

/-- The Go call `filepath.Join(dir, name)` on Unix: leading empty elements are ignored and the
result is cleaned; it is empty when both elements are. -/
def filepathJoin (dir name : String) : String :=
  if dir ≠ "" then filepathClean (dir ++ "/" ++ name)
  else if name ≠ "" then filepathClean name
  else ""

/-- The Go function `filepath.Dir` on Unix: the path up to its last separator, cleaned. -/
def filepathDir (path : String) : String :=
  filepathClean (String.mk (path.data.rdropWhile (fun c => c != '/')))

/-- The Go function `filepath.Base` on Unix: the last element of the path, trailing separators
apart; `.` for the empty path and a separator for a path of separators only. -/
def filepathBase (path : String) : String :=
  if path = "" then "."
  else
    let last := (((path.data.rdropWhile (fun c => c == '/')).reverse.takeWhile
      (fun c => c != '/'))).reverse
    if last = [] then "/" else String.mk last

/-- The path that `filepath.Join` returns for the pair. -/
def Path.real (p : Path) : String :=
  filepathJoin p.dir p.name

/-- The filesystem calls made by the program. -/
inductive FsOp where
  | mkdirAll (dir : String)
  | writeFile (p : Path)
  | remove (p : Path)
  | readDir (dir : String)
  | stat (p : Path)
deriving DecidableEq, Repr

/-- The database statements issued by the handlers, one name per call site. -/
inductive DbOp where
  | serverByUUID
  | updateServer
  | clearPeers
  | saveServerKey
  | reloadServer
  | firstServer
  | listPeers
  | deletePeer
  | createPeer
  | repairServerKey
deriving DecidableEq, Repr

/-- Everything the program asks of its surroundings: environment variables, the process runner,
readable system files, which filesystem calls and database statements are refused (for
instance for lack of permission, or a lost connection), and the identifier and addresses that
the database fills in for a new peer row, given the rows already there. -/
structure Env where
  getenv : String → String
  exec : String → List String → String → ProcResult
  openFile : String → Except Error String
  fsErr : FsOp → Option Error
  dbErr : DbOp → Option Error
  assignPeer : List Peer → String × Option String × Option String :=
    fun peers => ("peer-" ++ toString peers.length, none, none)

/-- The dropping of one trailing carriage return done by `bufio.ScanLines`. -/
def dropCR (l : List Char) : List Char :=
  if l.getLast? = some '\r' then l.dropLast else l

/-- The constant `bufio.MaxScanTokenSize`. -/
def MaxScanTokenSize : Nat := 64 * 1024

/-- The number of bytes of the UTF-8 encoding of a run of characters. -/
def byteLen (l : List Char) : Nat :=
  (l.map Char.utf8Size).sum

/-- The tokens that successive `scanner.Scan()` calls yield on a `bufio.Scanner` with the default
line splitting: lines end at a line feed, the last line may be unterminated, and scanning stops
at a line that does not fit the buffer. `cur` is the line being read. -/
def scanGo : List Char → List Char → List String
  | [], cur =>
    if cur = [] then [] else if byteLen cur < MaxScanTokenSize then [String.mk (dropCR cur)] else []
  | c :: cs, cur =>
    if c = '\n' then
      if byteLen cur < MaxScanTokenSize then String.mk (dropCR cur) :: scanGo cs [] else []
    else scanGo cs (cur ++ [c])

/-- The loop `for scanner.Scan()` of `DetectDefaultInterface` (lines 42-51) over the lines that
remain after the header. -/
def scanRoutes : List String → Option String
  | [] => none
  | line :: rest =>
    match Fields line with
    | f0 :: f1 :: _ => if f1 = "00000000" then some f0 else scanRoutes rest
    | _ => scanRoutes rest

/-- The function `DetectDefaultInterface`: its result and the accesses it makes, in order. -/
def DetectDefaultInterface (env : Env) : Except Error String × List Event :=
  let out := env.exec "ip" ["route", "show", "default"] ""
  let ev := Event.exec "ip" ["route", "show", "default"] ""
  let primary :=
    match out.err with
    | none => findDev (Fields (TrimSpace out.stdout))
    | some _ => none
  match primary with
  | some dev => (.ok dev, [ev])
  | none =>
    let ev2 := Event.openFile "/proc/net/route"
    match env.openFile "/proc/net/route" with
    | .error err2 =>
      match out.err with
      | some err => (.error err, [ev, ev2])
      | none => (.error err2, [ev, ev2])
    | .ok f =>
      match scanGo f.data [] with
      | [] => (.error "empty /proc/net/route", [ev, ev2])
      | _ :: rest =>
        match scanRoutes rest with
        | some iface => (.ok iface, [ev, ev2])
        | none => (.error "default interface not found", [ev, ev2])

/-! ### Filesystem and database state -/

/-- The directories and files on disk. -/
structure FS where
  dirs : List String
  files : List (Path × String)
deriving DecidableEq, Repr

/-- The content of the file at a path, if there is one. -/
def FS.read (fs : FS) (p : Path) : Option String :=
  (fs.files.find? (fun e => e.1 = p)).map (fun e => e.2)

/-- The names of the entries of a directory. -/
def FS.entries (fs : FS) (dir : String) : List String :=
  (fs.files.filter (fun e => e.1.dir = dir)).map (fun e => e.1.name)

/-- The call `os.MkdirAll(dir, 0o755)`: an existing directory is left alone. -/
def MkdirAll (env : Env) (dir : String) (fs : FS) : Option Error × FS :=
  match env.fsErr (.mkdirAll dir) with
  | some err => (some err, fs)
  | none => (none, if dir ∈ fs.dirs then fs else { fs with dirs := dir :: fs.dirs })

/-- The call `os.WriteFile(path, content, 0o644)`: creates the file or replaces its content. -/
def WriteFile (env : Env) (p : Path) (content : String) (fs : FS) : Option Error × FS :=
  if p.dir ∈ fs.dirs then
    match env.fsErr (.writeFile p) with
    | some err => (some err, fs)
    | none => (none, { fs with files := (p, content) :: fs.files.filter (fun e => e.1 ≠ p) })
  else (some "no such file or directory", fs)

/-- The call `os.Remove(path)`: an error when there is no such file, or when removal is refused. -/
def Remove (env : Env) (p : Path) (fs : FS) : Option Error × FS :=
  match fs.read p with
  | none => (some "no such file or directory", fs)
  | some _ =>
    match env.fsErr (.remove p) with
    | some err => (some err, fs)
    | none => (none, { fs with files := fs.files.filter (fun e => e.1 ≠ p) })

/-- The call `os.ReadDir(dir)`: the entry names, and the error if the listing is refused. -/
def ReadDir (env : Env) (dir : String) (fs : FS) : List String × Option Error :=
  match env.fsErr (.readDir dir) with
  | some err => ([], some err)
  | none => (fs.entries dir, none)

/-- The error of `os.Stat(path)`, if any. -/
def Stat (env : Env) (p : Path) (fs : FS) : Option Error :=
  match fs.read p with
  | none => some "no such file or directory"
  | some _ => env.fsErr (.stat p)

/-- The mutable state: the `server` and `peer` tables, the disk, and the record of processes
started and system files opened. -/
structure World where
  servers : List Server
  peers : List Peer
  fs : FS
  trace : List Event
deriving DecidableEq, Repr

/-! ## wireguard/generator.go: writing the files -/

/-- The function `ensureDirs`. -/
def ensureDirs (env : Env) (cfg : Config) (fs : FS) : Option Error × FS :=
  match MkdirAll env cfg.WGConfDir fs with
  | (some err, fs) => (some err, fs)
  | (none, fs) =>
    match MkdirAll env cfg.WGClientsDir fs with
    | (some err, fs) => (some err, fs)
    | (none, fs) => (none, fs)

/-- The variable `extIF` of `GenerateServerConfig` (lines 29-34): the configured override, else
the detected interface, else empty; with the accesses made by detection when it runs. -/
def resolveExtIF (env : Env) (cfg : Config) : String × List Event :=
  if cfg.WGExternalIF = "" then
    match DetectDefaultInterface env with
    | (.ok ifname, evs) => (ifname, evs)
    | (.error _, evs) => ("", evs)
  else (cfg.WGExternalIF, [])

/-- The path of the server config, `filepath.Join(cfg.WGConfDir, cfg.WGInterface + ".conf")`, as
the pair of the two arguments. -/
def serverConfPath (cfg : Config) : Path :=
  ⟨cfg.WGConfDir, cfg.WGInterface ++ ".conf"⟩

/-- The path of a peer config, `filepath.Join(cfg.WGClientsDir, uuid + ".conf")`, as the pair of
the two arguments. -/
def peerConfPath (cfg : Config) (uuid : String) : Path :=
  ⟨cfg.WGClientsDir, uuid ++ ".conf"⟩

/-- The function `GenerateServerConfig`: the returned error, if any, and the world afterwards. -/
def GenerateServerConfig (env : Env) (cfg : Config) (s : Server) (peers : List Peer)
    (w : World) : Option Error × World :=
  match ensureDirs env cfg w.fs with
  | (some err, fs) => (some err, { w with fs := fs })
  | (none, fs) =>
    let (extIF, evs) := resolveExtIF env cfg
    let content := serverContent extIF s peers
    let path := serverConfPath cfg
    let (err, fs) := WriteFile env path content fs
    (err, { w with fs := fs, trace := w.trace ++ evs })

/-- The function `GeneratePeerConfig`: the returned path (none for the empty string), the
returned error, if any, and the world afterwards. -/
def GeneratePeerConfig (env : Env) (cfg : Config) (s : Server) (p : Peer)
    (w : World) : (Option Path × Option Error) × World :=
  match ensureDirs env cfg w.fs with
  | (some err, fs) => ((none, some err), { w with fs := fs })
  | (none, fs) =>
    let content := peerContent s p
    let path := peerConfPath cfg p.UUID
    let (err, fs) := WriteFile env path content fs
    ((some path, err), { w with fs := fs })

/-! ## wireguard/keys.go -/

/-- The function `GenerateKeyPair`: the pair (private key, public key) or the error, and the
processes it started, in order. -/
def GenerateKeyPair (env : Env) : Except Error (String × String) × List Event :=
  let cfg := LoadConfig env.getenv
  let gen := env.exec cfg.WGMode ["genkey"] ""
  let ev := Event.exec cfg.WGMode ["genkey"] ""
  match gen.err with
  | some err => (.error err, [ev])
  | none =>
    let priv := TrimSpace gen.stdout
    if priv = "" then (.error "empty private key from wg genkey", [ev])
    else
      let pub := env.exec cfg.WGMode ["pubkey"] priv
      let ev2 := Event.exec cfg.WGMode ["pubkey"] priv
      match pub.err with
      | some err => (.error err, [ev, ev2])
      | none =>
        let pubKey := TrimSpace pub.stdout
        if pubKey = "" then (.error "empty public key from wg pubkey", [ev, ev2])
        else (.ok (priv, pubKey), [ev, ev2])

/-! ## handlers/wg.go -/

/-- An HTTP response written with `c.JSON(status, gin.H ...)`: the status code and the fields of
the JSON object. -/
structure Response where
  status : Nat
  body : List (String × String)
deriving DecidableEq, Repr

/-- The function `runSystemctl`: the returned text and error, and the world with the invocation
recorded. -/
def runSystemctl (env : Env) (args : List String) (w : World) :
    (String × Option Error) × World :=
  let r := env.exec "systemctl" args ""
  let w := { w with trace := w.trace ++ [Event.exec "systemctl" args ""] }
  match r.err with
  | some err => ((r.stdout ++ r.stderr, some err), w)
  | none => ((r.stdout, none), w)

/-- The handler `WGStart`. -/
def WGStart (env : Env) (w : World) : Response × World :=
  let cfg := LoadConfig env.getenv
  let confPath := serverConfPath cfg
  let svc := cfg.WGMode ++ "-quick@" ++ cfg.WGInterface
  match Stat env confPath w.fs with
  | some _ =>
    (⟨400, [("error", confPath.name ++ " not found in " ++ cfg.WGConfDir)]⟩, w)
  | none =>
    match runSystemctl env ["--now", "enable", svc] w with
    | ((out, some err), w) =>
      (⟨500, [("error", "systemctl enable failed: " ++ err), ("output", out), ("service", svc)]⟩, w)
    | ((out, none), w) =>
      (⟨200, [("message", "wireguard started"), ("output", out), ("service", svc)]⟩, w)

/-! ## handlers/config.go -/

/-- The query `db.DB.Limit(1).Find(&s)` with its error discarded: the first row, or the zero
value when the table is empty or the query fails. -/
def firstServer (env : Env) (w : World) : Server :=
  match env.dbErr .firstServer with
  | some _ => Server.zero
  | none => w.servers.headD Server.zero

/-- The query `db.DB.Find(&peers)` with its error discarded: all rows, or none when the query
fails. -/
def listPeers (env : Env) (w : World) : List Peer :=
  match env.dbErr .listPeers with
  | some _ => []
  | none => w.peers

/-- The query `db.DB.Where("uuid = ?", uuid).First(&s2)` of `UpdateServer` (line 112) with its
error discarded: the row with that identifier, or the zero value when there is none or the query
fails. -/
def reloadServer (env : Env) (uuid : String) (w : World) : Server :=
  match env.dbErr .reloadServer with
  | some _ => Server.zero
  | none => (w.servers.find? (fun (r : Server) => r.UUID = uuid)).getD Server.zero

/-- The handler `DeletePeer`; `uuid` is the path parameter. -/
def DeletePeer (env : Env) (uuid : String) (w : World) : Response × World :=
  match env.dbErr .deletePeer with
  | some err => (⟨500, [("error", "delete peer failed: " ++ err)]⟩, w)
  | none =>
    let w := { w with peers := w.peers.filter (fun p => p.UUID ≠ uuid) }
    let cfg := LoadConfig env.getenv
    let w := { w with fs := (Remove env (peerConfPath cfg uuid) w.fs).2 }
    let s := firstServer env w
    let peers := listPeers env w
    let w := (GenerateServerConfig env cfg s peers w).2
    (⟨200, [("message", "peer deleted")]⟩, w)

/-- The request body `UpdateServerRequest`. -/
structure UpdateServerRequest where
  PublicIP : Option String
  Port : Option Int
  EnableIPv6 : Option Bool
  SubnetV4 : Option String
  SubnetV6 : Option String
deriving DecidableEq, Repr

/-- Whether the map `updates` built by `UpdateServer` (lines 58-73) is empty. -/
def UpdateServerRequest.noUpdates (req : UpdateServerRequest) : Bool :=
  req.PublicIP.isNone && req.Port.isNone && req.EnableIPv6.isNone && req.SubnetV4.isNone
    && req.SubnetV6.isNone

/-- The effect of `Updates(updates)` on one server row: every requested column is overwritten. -/
def UpdateServerRequest.apply (req : UpdateServerRequest) (s : Server) : Server :=
  { s with
    PublicIP := req.PublicIP.getD s.PublicIP
    Port := req.Port.getD s.Port
    EnableIPv6 := req.EnableIPv6.getD s.EnableIPv6
    SubnetV4 := req.SubnetV4.getD s.SubnetV4
    SubnetV6 := req.SubnetV6.getD s.SubnetV6 }

/-- The value `subnetChanged` of `UpdateServer` (line 83); `s` is the row as stored before. -/
def subnetChanged (req : UpdateServerRequest) (s : Server) : Bool :=
  (match req.SubnetV4 with
    | some v => v != s.SubnetV4
    | none => false)
  || (match req.SubnetV6 with
    | some v => v != s.SubnetV6
    | none => false)

/-- The loop of `UpdateServer` over the directory entries (lines 93-96): each removal is
attempted and its error discarded. -/
def removeAll (env : Env) (dir : String) : List String → FS → FS
  | [], fs => fs
  | name :: rest, fs => removeAll env dir rest (Remove env ⟨dir, name⟩ fs).2

/-- The loop of `UpdateServer` over the peers (lines 119-121): each peer config is generated and
both results discarded. -/
def regeneratePeers (env : Env) (cfg : Config) (s : Server) : List Peer → World → World
  | [], w => w
  | p :: rest, w => regeneratePeers env cfg s rest (GeneratePeerConfig env cfg s p w).2

/-- The handler `UpdateServer`; `uuid` is the path parameter and `req` the bound JSON body
(none when binding fails). -/
def UpdateServer (env : Env) (uuid : String) (req : Option UpdateServerRequest)
    (w : World) : Response × World :=
  match (match env.dbErr .serverByUUID with
      | some _ => none
      | none => w.servers.find? (fun (r : Server) => r.UUID = uuid)) with
  | none => (⟨404, [("error", "server not found")]⟩, w)
  | some s =>
    match req with
    | none => (⟨400, [("error", "invalid request body")]⟩, w)
    | some req =>
      if req.noUpdates then (⟨400, [("error", "no fields to update")]⟩, w)
      else
        match env.dbErr .updateServer with
        | some err => (⟨500, [("error", "update server failed: " ++ err)]⟩, w)
        | none =>
          let w := { w with servers := w.servers.map (fun (r : Server) => if r.UUID = uuid then req.apply r else r) }
          -- the block run when the subnet changes (lines 84-97): the response if it fails
          let cleared : Except Response World :=
            if subnetChanged req s then
              match env.dbErr .clearPeers with
              | some err => .error ⟨500, [("error", "clear peers failed: " ++ err)]⟩
              | none =>
                let w := { w with peers := [] }
                let cfg := LoadConfig env.getenv
                let entries := (ReadDir env cfg.WGClientsDir w.fs).1
                .ok { w with fs := removeAll env cfg.WGClientsDir entries w.fs }
            else .ok w
          match cleared with
          | .error resp => (resp, w)
          | .ok w =>
            match GenerateKeyPair env with
            | (.error err, evs) =>
              (⟨500, [("error", "generate server key failed: " ++ err)]⟩,
                { w with trace := w.trace ++ evs })
            | (.ok (priv, pub), evs) =>
              let w := { w with trace := w.trace ++ evs }
              match env.dbErr .saveServerKey with
              | some err => (⟨500, [("error", "save server key failed: " ++ err)]⟩, w)
              | none =>
                let w := { w with servers := w.servers.map (fun (r : Server) =>
                  if r.UUID = uuid then { r with PrivateKey := priv, PublicKey := pub } else r) }
                let cfg := LoadConfig env.getenv
                let s2 := reloadServer env uuid w
                let peers := listPeers env w
                match GenerateServerConfig env cfg s2 peers w with
                | (some err, w) =>
                  (⟨500, [("error", "generate server config failed: " ++ err)]⟩, w)
                | (none, w) =>
                  let w := regeneratePeers env cfg s2 peers w
                  (⟨200, [("message", "server updated; regenerated keys and peer configs")]⟩, w)

/-! ## handlers/wg.go: the other service operations -/

/-- The handler `WGStop`. -/
def WGStop (env : Env) (w : World) : Response × World :=
  let cfg := LoadConfig env.getenv
  let svc := cfg.WGMode ++ "-quick@" ++ cfg.WGInterface
  match runSystemctl env ["--now", "disable", svc] w with
  | ((out, some err), w) =>
    (⟨500, [("error", "systemctl disable failed: " ++ err), ("output", out), ("service", svc)]⟩, w)
  | ((out, none), w) =>
    (⟨200, [("message", "wireguard stopped"), ("output", out), ("service", svc)]⟩, w)

/-- The handler `WGRestart`. -/
def WGRestart (env : Env) (w : World) : Response × World :=
  let cfg := LoadConfig env.getenv
  let svc := cfg.WGMode ++ "-quick@" ++ cfg.WGInterface
  match runSystemctl env ["restart", svc] w with
  | ((out, some err), w) =>
    (⟨500, [("error", "systemctl restart failed: " ++ err), ("output", out), ("service", svc)]⟩, w)
  | ((out, none), w) =>
    (⟨200, [("message", "wireguard restarted"), ("output", out), ("service", svc)]⟩, w)

/-- The handler `WGStatus`. -/
def WGStatus (env : Env) (w : World) : Response × World :=
  let cfg := LoadConfig env.getenv
  let svc := cfg.WGMode ++ "-quick@" ++ cfg.WGInterface
  match runSystemctl env ["status", svc] w with
  | ((out, some err), w) =>
    (⟨200, [("status", "error"), ("output", out), ("error", err), ("service", svc)]⟩, w)
  | ((out, none), w) =>
    (⟨200, [("status", "ok"), ("output", out), ("service", svc)]⟩, w)

/-- The handler `WGShow`: it runs the tunnel tool itself, not the service manager. -/
def WGShow (env : Env) (w : World) : Response × World :=
  let cfg := LoadConfig env.getenv
  let r := env.exec cfg.WGMode ["show"] ""
  let w := { w with trace := w.trace ++ [Event.exec cfg.WGMode ["show"] ""] }
  match r.err with
  | some err => (⟨500, [("error", err), ("output", r.stdout), ("stderr", r.stderr)]⟩, w)
  | none => (⟨200, [("output", r.stdout)]⟩, w)

/-! ## handlers/config.go: peer creation -/

/-- The request body `CreatePeerRequest`. -/
structure CreatePeerRequest where
  Name : Option String
deriving DecidableEq, Repr

/-- The Go expression `len(s)` on a string: its number of bytes. -/
def goLen (s : String) : Nat :=
  byteLen s.data

/-- The block of `CreatePeer` that repairs the server keys (lines 153-161): when either key is
shorter than 40 bytes a new pair is generated; if that succeeds the pair is saved to the row
with the server's identifier (the error of the statement discarded) and put into `s`. -/
def repairServerKeys (env : Env) (s : Server) (w : World) : Server × World :=
  if goLen s.PrivateKey < 40 || goLen s.PublicKey < 40 then
    match GenerateKeyPair env with
    | (.ok (sPriv, sPub), evs) =>
      let servers :=
        match env.dbErr .repairServerKey with
        | some _ => w.servers
        | none => w.servers.map (fun (r : Server) =>
            if r.UUID = s.UUID then { r with PrivateKey := sPriv, PublicKey := sPub } else r)
      ({ s with PrivateKey := sPriv, PublicKey := sPub },
        { w with servers := servers, trace := w.trace ++ evs })
    | (.error _, evs) => (s, { w with trace := w.trace ++ evs })
  else (s, w)

/-- The path `filepath.Join(dir, name)` as text, for a response body. -/
def Path.text (p : Path) : String :=
  p.dir ++ "/" ++ p.name

/-- The handler `CreatePeer`; `req` is the bound JSON body (none when binding fails). The new row
is appended to the peer table with the identifier and addresses that the database fills in; in
the response body the peer object is given by its identifier. -/
def CreatePeer (env : Env) (req : Option CreatePeerRequest) (w : World) : Response × World :=
  match req with
  | none => (⟨400, [("error", "invalid request body")]⟩, w)
  | some req =>
    match GenerateKeyPair env with
    | (.error err, evs) =>
      (⟨500, [("error", "generate peer key failed: " ++ err)]⟩, { w with trace := w.trace ++ evs })
    | (.ok (priv, pub), evs) =>
      let w := { w with trace := w.trace ++ evs }
      match env.dbErr .createPeer with
      | some err => (⟨500, [("error", "create peer failed: " ++ err)]⟩, w)
      | none =>
        let assigned := env.assignPeer w.peers
        let p : Peer :=
          { UUID := assigned.1, IPv4 := assigned.2.1, IPv6 := assigned.2.2, PrivateKey := priv,
            PublicKey := pub, Name := req.Name }
        let w := { w with peers := w.peers ++ [p] }
        let cfg := LoadConfig env.getenv
        let s := firstServer env w
        match repairServerKeys env s w with
        | (s, w) =>
          match GeneratePeerConfig env cfg s p w with
          | ((_, some err), w) =>
            (⟨500, [("error", "generate peer config failed: " ++ err)]⟩, w)
          | ((path, none), w) =>
            let peers := listPeers env w
            let w := (GenerateServerConfig env cfg s peers w).2
            (⟨200, [("peer", p.UUID), ("path", (path.map Path.text).getD "")]⟩, w)

/-! ## Reading a rendered text -/

/-- The pieces of a text between line feeds. -/
def splitLines : List Char → List (List Char)
  | [] => [[]]
  | c :: cs =>
    if c = '\n' then [] :: splitLines cs
    else
      match splitLines cs with
      | [] => [[c]]
      | l :: ls => (c :: l) :: ls

/-- The lines of a text. -/
def textLines (t : String) : List String :=
  (splitLines t.data).map String.mk

/-- The key of a configuration line: what stands before the first `=`, without the spaces
around it. -/
def lineKey (line : String) : String :=
  TrimSpace (String.mk (line.data.takeWhile (fun c => c != '=')))

/-- Whether a line has the form `key = value` for the given key. -/
def isDirective (key line : String) : Bool :=
  line.data.contains '=' && lineKey line == key

/-- The lines of a text of the form `key = value` for the given key, in order. -/
def directives (key : String) (t : String) : List String :=
  (textLines t).filter (isDirective key)

/-- A string without a line feed. -/
def oneLine (v : String) : Prop :=
  '\n' ∉ v.data

instance (v : String) : Decidable (oneLine v) := by
  unfold oneLine; infer_instance

/-- The text made of the given lines, each ended by a line feed. -/
def unlines (ls : List String) : String :=
  ls.foldr (fun l acc => l ++ "\n" ++ acc) ""

/-- The peer blocks of a list of peers, one after the other in the order of the list. -/
def peerBlocks : List Peer → String
  | [] => ""
  | p :: ps => peerBlock p ++ peerBlocks ps

/-- The lines of the firewall and NAT block. -/
def natRuleLines (extIF : String) : List String :=
  [ "PostUp   = iptables -A FORWARD -i %i -j ACCEPT",
    "PostUp   = iptables -A FORWARD -o %i -j ACCEPT",
    "PostUp   = iptables -t nat -A POSTROUTING -o " ++ extIF ++ " -j MASQUERADE",
    "PostUp   = ip6tables -A FORWARD -i %i -j ACCEPT",
    "PostUp   = ip6tables -A FORWARD -o %i -j ACCEPT",
    "PostUp   = ip6tables -t nat -A POSTROUTING -o " ++ extIF ++ " -j MASQUERADE",
    "PostDown = iptables -D FORWARD -i %i -j ACCEPT",
    "PostDown = iptables -D FORWARD -o %i -j ACCEPT",
    "PostDown = iptables -t nat -D POSTROUTING -o " ++ extIF ++ " -j MASQUERADE",
    "PostDown = ip6tables -D FORWARD -i %i -j ACCEPT",
    "PostDown = ip6tables -D FORWARD -o %i -j ACCEPT",
    "PostDown = ip6tables -t nat -D POSTROUTING -o " ++ extIF ++ " -j MASQUERADE" ]

/-- The lines of the interface section of the server config that precede the NAT block. -/
def serverHeadLines (s : Server) : List String :=
  ["[Interface]", "Address = " ++ s.SubnetV4]
    ++ (if s.EnableIPv6 then ["Address = " ++ s.SubnetV6] else [])
    ++ ["ListenPort = " ++ toString s.Port, "PrivateKey = " ++ s.PrivateKey]

/-- The lines of one peer block of the server config. -/
def peerBlockLines (p : Peer) : List String :=
  ["[Peer]", "PublicKey = " ++ p.PublicKey, "AllowedIPs = " ++ valOrEmpty p.IPv4]
    ++ (if nonEmptyPtr p.IPv6 then ["AllowedIPs = " ++ valOrEmpty p.IPv6] else [])
    ++ [""]

/-- The lines of the server config. -/
def serverLines (extIF : String) (s : Server) (peers : List Peer) : List String :=
  serverHeadLines s ++ (if extIF = "" then [] else natRuleLines extIF) ++ [""]
    ++ peers.flatMap peerBlockLines

/-- A server row whose rendered text fields hold no line feed. -/
def Server.SingleLine (s : Server) : Prop :=
  oneLine s.PublicIP ∧ oneLine s.SubnetV4 ∧ oneLine s.SubnetV6 ∧ oneLine s.PrivateKey
    ∧ oneLine s.PublicKey

/-- A peer row whose rendered text fields hold no line feed. -/
def Peer.SingleLine (p : Peer) : Prop :=
  oneLine p.PrivateKey ∧ oneLine p.PublicKey ∧ oneLine (valOrEmpty p.IPv4)
    ∧ oneLine (valOrEmpty p.IPv6)

instance (s : Server) : Decidable s.SingleLine := by
  unfold Server.SingleLine; infer_instance

instance (p : Peer) : Decidable p.SingleLine := by
  unfold Peer.SingleLine; infer_instance

/-- The text whose lines are the given ones: the inverse of `textLines`. -/
def joinLines : List String → String
  | [] => ""
  | [l] => l
  | l :: m :: ls => l ++ "\n" ++ joinLines (m :: ls)

/-- A text with its `key = value` lines for the given keys removed. -/
def removeDirectives (keys : List String) (t : String) : String :=
  joinLines ((textLines t).filter (fun l => !(keys.any (fun k => isDirective k l))))

/-- The lines of a peer config. -/
def peerContentLines (s : Server) (p : Peer) : List String :=
  ["[Interface]", "PrivateKey = " ++ p.PrivateKey,
    "Address = " ++ (if s.EnableIPv6 && nonEmptyPtr p.IPv6
      then valOrEmpty p.IPv4 ++ ", " ++ valOrEmpty p.IPv6 else valOrEmpty p.IPv4),
    "MTU = 1420", "", "[Peer]", "PublicKey = " ++ s.PublicKey,
    "Endpoint = " ++ (endpointIP s ++ ":" ++ toString s.Port),
    "AllowedIPs = " ++ s.SubnetV4]
    ++ (if s.EnableIPv6 && s.SubnetV6 != "" then ["AllowedIPs = " ++ s.SubnetV6] else [])

/-- The server table after `UpdateServer` has stored the request and the new key pair. -/
def updatedServers (uuid : String) (req : UpdateServerRequest) (priv pub : String)
    (servers : List Server) : List Server :=
  (servers.map (fun (r : Server) => if r.UUID = uuid then req.apply r else r)).map
    (fun (r : Server) => if r.UUID = uuid then { r with PrivateKey := priv, PublicKey := pub } else r)

/-- The world in which `UpdateServer` regenerates the configs after a subnet change: request
and keys stored, peer table cleared, client directory swept. -/
def sweptWorld (env : Env) (uuid : String) (req : UpdateServerRequest) (priv pub : String)
    (evs : List Event) (w : World) : World :=
  { servers := updatedServers uuid req priv pub w.servers
    peers := []
    fs := removeAll env (LoadConfig env.getenv).WGClientsDir
      (ReadDir env (LoadConfig env.getenv).WGClientsDir w.fs).1 w.fs
    trace := w.trace ++ evs }

/-- What the primary strategy of `DetectDefaultInterface` yields: the device token of the output
of `ip route show default` when the invocation succeeds and the output has one. -/
def primaryDevice (env : Env) : Option String :=
  match (env.exec "ip" ["route", "show", "default"] "").err with
  | none => findDev (Fields (TrimSpace (env.exec "ip" ["route", "show", "default"] "").stdout))
  | some _ => none

/-- The result of the fallback strategy of `DetectDefaultInterface` (lines 37-52) on the text of
the kernel routing table. -/
def fallbackDevice (table : String) : Except Error String :=
  match scanGo table.data [] with
  | [] => .error "empty /proc/net/route"
  | _ :: rest =>
    match scanRoutes rest with
    | some iface => .ok iface
    | none => .error "default interface not found"

/-- A line of the kernel routing table that stands for a default route: its second column, the
destination, is `00000000`. -/
def isDefaultRoute (row : String) : Prop :=
  (Fields row)[1]? = some "00000000"

instance (row : String) : Decidable (isDefaultRoute row) := by
  unfold isDefaultRoute; infer_instance

/-- What the routing-table scan has to answer over the lines after the header: the first column
of the first line that stands for a default route, and a not-found error when no line does; and
nothing else, so that a device comes from such a first line only and the only error is the
not-found error, over lines none of which stands for a default route. -/
def DefaultRouteResult (rows : List String) (res : Except Error String) : Prop :=
  (∀ (i : Nat) (row dev : String), rows[i]? = some row → isDefaultRoute row →
      (Fields row)[0]? = some dev →
      (∀ (j : Nat) (r : String), j < i → rows[j]? = some r → ¬ isDefaultRoute r) → res = .ok dev)
  ∧ ((∀ r ∈ rows, ¬ isDefaultRoute r) → res = .error "default interface not found")
  ∧ (∀ dev : String, res = .ok dev →
      ∃ (i : Nat) (row : String), rows[i]? = some row ∧ isDefaultRoute row
        ∧ (Fields row)[0]? = some dev
        ∧ ∀ (j : Nat) (r : String), j < i → rows[j]? = some r → ¬ isDefaultRoute r)
  ∧ (∀ err : Error, res = .error err →
      err = "default interface not found" ∧ ∀ r ∈ rows, ¬ isDefaultRoute r)

/-- The outcome of the generation step of `GenerateKeyPair`: `<mode> genkey` with no input. -/
def genkeyRun (env : Env) : ProcResult :=
  env.exec (LoadConfig env.getenv).WGMode ["genkey"] ""

/-- The outcome of the derivation step of `GenerateKeyPair` when it is given `priv` on its
standard input: `<mode> pubkey`. -/
def pubkeyRun (env : Env) (priv : String) : ProcResult :=
  env.exec (LoadConfig env.getenv).WGMode ["pubkey"] priv

/-- The number of address families a peer possesses: one for each of IPv4 and IPv6 for which it
has a non-empty address. -/
def addressFamilies (p : Peer) : Nat :=
  (if nonEmptyPtr p.IPv4 then 1 else 0) + (if nonEmptyPtr p.IPv6 then 1 else 0)

/-! ## Sample rows and worlds -/

/-- A server row with a public IPv6 address and both subnets. -/
def sampleServer : Server :=
  ⟨"5b1c-0001", "2001:db8::1", 51820, true, "10.8.0.1/24", "fd42::1/64", "c2VydmVyLXByaXZhdGU=",
    "c2VydmVyLXB1YmxpYw=="⟩

/-- A peer holding an IPv4 address only. -/
def peerV4 : Peer :=
  ⟨"7f3e-0001", some "10.8.0.2/32", none, "cGVlcjEtcHJpdmF0ZQ==", "cGVlcjEtcHVibGlj", some "laptop"⟩

/-- A peer holding both an IPv4 and an IPv6 address. -/
def peerDual : Peer :=
  ⟨"7f3e-0002", some "10.8.0.3/32", some "fd42::3/128", "cGVlcjItcHJpdmF0ZQ==", "cGVlcjItcHVibGlj",
    none⟩

/-- A server row with a public IPv4 address and IPv6 switched off. -/
def sampleServerV4 : Server :=
  { sampleServer with PublicIP := "203.0.113.5", EnableIPv6 := false }

/-- A host where `ip route show default` answers with one default route through `eth0`, the key
tool answers with fixed keys, and no filesystem call or database statement is refused. -/
def sampleEnv : Env :=
  { getenv := fun _ => ""
    exec := fun name args _ =>
      if name = "ip" then ⟨"default via 10.0.0.1 dev eth0 proto dhcp src 10.0.0.5\n", "", none⟩
      else if name = "awg" ∧ args = ["genkey"] then ⟨"bmV3LXNlcnZlci1wcml2YXRl\n", "", none⟩
      else if name = "awg" ∧ args = ["pubkey"] then ⟨"bmV3LXNlcnZlci1wdWJsaWM=\n", "", none⟩
      else ⟨"", "", none⟩
    openFile := fun _ => .error "open /proc/net/route: no such file or directory"
    fsErr := fun _ => none
    dbErr := fun _ => none }

/-- A freshly provisioned host: one server row, no peers, nothing on disk, nothing run yet. -/
def freshWorld : World :=
  { servers := [sampleServer], peers := [], fs := ⟨[], []⟩, trace := [] }

/-- A host whose configuration directories exist but refuse writes and removals. -/
def readOnlyEnv : Env :=
  { sampleEnv with
    fsErr := fun op =>
      match op with
      | .writeFile _ => some "read-only file system"
      | .remove _ => some "read-only file system"
      | _ => none }

/-- A host with two peers whose server and peer configs were generated for interface `eth0`. -/
def provisionedWorld : World :=
  { servers := [sampleServer]
    peers := [peerV4, peerDual]
    fs :=
      { dirs := [DefaultWGClientsDir, DefaultWGConfDir]
        files :=
          [ (⟨DefaultWGConfDir, "awg0.conf"⟩, serverContent "eth0" sampleServer [peerV4, peerDual]),
            (⟨DefaultWGClientsDir, "7f3e-0001.conf"⟩, peerContent sampleServer peerV4),
            (⟨DefaultWGClientsDir, "7f3e-0002.conf"⟩, peerContent sampleServer peerDual) ] }
    trace := [] }

/-- A host on which the key tool cannot be started. -/
def noKeyToolEnv : Env :=
  { sampleEnv with
    exec := fun name args stdin =>
      if name = "awg" then ⟨"", "", some "exec: awg: executable file not found in PATH"⟩
      else sampleEnv.exec name args stdin }

/-- A request that moves the server to another IPv4 subnet. -/
def moveSubnet : UpdateServerRequest :=
  { PublicIP := none, Port := none, EnableIPv6 := none, SubnetV4 := some "10.9.0.1/24",
    SubnetV6 := none }

/-- A host without a default route in the answer of `ip route show default` (the command
succeeds and prints nothing) whose kernel routing table lists a subnet route through `wlan0` and
then a default route through `eth1`. -/
def noRouteEnv : Env :=
  { sampleEnv with
    exec := fun name args stdin =>
      if name = "ip" then ⟨"", "", none⟩ else sampleEnv.exec name args stdin
    openFile := fun _ =>
      .ok ("Iface\tDestination\tGateway \tFlags\tRefCnt\tUse\tMetric\tMask\t\tMTU\tWindow\tIRTT\n"
        ++ "wlan0\t0000A8C0\t00000000\t0001\t0\t0\t100\t00FFFFFF\t0\t0\t0\n"
        ++ "eth1\t00000000\t0100A8C0\t0003\t0\t0\t100\t00000000\t0\t0\t0\n") }

/-- A host on which `systemctl` succeeds, prints nothing on standard output and reports what it
did on standard error. -/
def chattyEnv : Env :=
  { sampleEnv with
    exec := fun name args stdin =>
      if name = "systemctl" then
        ⟨"", "Created symlink /etc/systemd/system/multi-user.target.wants/awg-quick@awg0.service\n",
          none⟩
      else sampleEnv.exec name args stdin }

/-- A host on which neither detection strategy works: `ip` exits with an error and the kernel
routing table cannot be opened. -/
def noDetectEnv : Env :=
  { sampleEnv with
    exec := fun name args stdin =>
      if name = "ip" then ⟨"", "", some "exit status 1"⟩ else sampleEnv.exec name args stdin }

/-- A peer holding an IPv6 address only. -/
def peerV6Only : Peer :=
  ⟨"7f3e-0003", none, some "fd42::4/128", "cGVlcjMtcHJpdmF0ZQ==", "cGVlcjMtcHVibGlj", none⟩

/-- A peer holding no address yet. -/
def peerNoAddress : Peer :=
  ⟨"7f3e-0004", none, none, "cGVlcjQtcHJpdmF0ZQ==", "cGVlcjQtcHVibGlj", none⟩

/-- A server row provisioned without keys. -/
def unkeyedServer : Server :=
  { sampleServer with PrivateKey := "", PublicKey := "" }

/-- A host where the key tool answers with keys of the usual 44 characters and the database
gives the next peer row the identifier `7f3e-0005` and the next free addresses. -/
def keyToolEnv : Env :=
  { sampleEnv with
    exec := fun name args stdin =>
      if name = "awg" ∧ args = ["genkey"] then ⟨"BwgJCgsMDQ4PEBESExQVFhcYGRobHB0eHyAhIiMkJSY=\n", "", none⟩
      else if name = "awg" ∧ args = ["pubkey"] then ⟨"ZWZnaGlqa2xtbm9wcXJzdHV2d3h5ent8fX5/gIGCg4Q=\n", "", none⟩
      else sampleEnv.exec name args stdin
    assignPeer := fun _ => ("7f3e-0005", some "10.8.0.5/32", some "fd42::5/128") }

/-- A host whose server row has no keys yet and whose one peer has a config file that is the
peer render of the stored server row and that peer. -/
def unkeyedWorld : World :=
  { servers := [unkeyedServer]
    peers := [peerV4]
    fs :=
      { dirs := [DefaultWGClientsDir, DefaultWGConfDir]
        files := [(⟨DefaultWGClientsDir, "7f3e-0001.conf"⟩, peerContent unkeyedServer peerV4)] }
    trace := [] }

/-- The peer row that `CreatePeer` adds on `keyToolEnv`. -/
def createdPeer : Peer :=
  ⟨"7f3e-0005", some "10.8.0.5/32", some "fd42::5/128", "BwgJCgsMDQ4PEBESExQVFhcYGRobHB0eHyAhIiMkJSY=", "ZWZnaGlqa2xtbm9wcXJzdHV2d3h5ent8fX5/gIGCg4Q=", some "tablet"⟩

/-- Paths with the form that `filepath.Clean` gives them, as listed with the Go library. -/
def cleanedPaths : List (String × String) :=
  [("", "."), ("abc", "abc"), ("abc/def", "abc/def"), ("a/b/c", "a/b/c"), (".", "."), ("..", ".."),
   ("../..", "../.."), ("../../abc", "../../abc"), ("/abc", "/abc"), ("/", "/"),
   ("abc/", "abc"), ("abc/def/", "abc/def"), ("a/b/c/", "a/b/c"), ("./", "."), ("../", ".."),
   ("../../", "../.."), ("/abc/", "/abc"), ("abc//def//ghi", "abc/def/ghi"), ("//abc", "/abc"),
   ("///abc", "/abc"), ("//abc//", "/abc"), ("abc//", "abc"), ("abc/./def", "abc/def"),
   ("/./abc/def", "/abc/def"), ("abc/.", "abc"), ("abc/def/ghi/../jkl", "abc/def/jkl"),
   ("abc/def/../ghi/../jkl", "abc/jkl"), ("abc/def/..", "abc"), ("abc/def/../..", "."),
   ("/abc/def/../..", "/"), ("abc/def/../../..", ".."), ("/abc/def/../../..", "/"),
   ("abc/def/../../../ghi/jkl/../../../mno", "../../mno"), ("/../abc", "/abc"),
   ("abc/./../def", "def"), ("abc//./../def", "def"), ("abc/../../././../def", "../../def")]

/-- A host configured with the client directory set to the server config directory, written
with a trailing separator. -/
def sharedDirEnv : Env :=
  { sampleEnv with
    getenv := fun key => if key = "WG_CLIENTS_DIR" then "/etc/amnezia/amneziawg/" else "" }

/-! ## Lemmas on rendered texts -/

theorem splitLines_append (a r : List Char) (h : '\n' ∉ a) :
    splitLines (a ++ '\n' :: r) = a :: splitLines r := by
  induction a with
  | nil => simp [splitLines]
  | cons c cs ih =>
    have hc : c ≠ '\n' := fun e => h (by simp [e])
    have hcs : '\n' ∉ cs := fun e => h (by simp [e])
    simp [splitLines, hc, ih hcs]

theorem textLines_line (l : String) (rest : String) (h : oneLine l) :
    textLines (l ++ "\n" ++ rest) = l :: textLines rest := by
  unfold textLines
  have : (l ++ "\n" ++ rest).data = l.data ++ '\n' :: rest.data := by simp
  rw [this, splitLines_append _ _ h]
  simp

theorem unlines_append (a b : List String) : unlines (a ++ b) = unlines a ++ unlines b := by
  induction a with
  | nil => simp [unlines]
  | cons l ls ih =>
    have h1 : unlines (l :: (ls ++ b)) = l ++ "\n" ++ unlines (ls ++ b) := rfl
    have h2 : unlines (l :: ls) = l ++ "\n" ++ unlines ls := rfl
    rw [List.cons_append, h1, h2, ih]
    simp [String.append_assoc]

theorem textLines_unlines (ls : List String) (h : ∀ l ∈ ls, oneLine l) :
    textLines (unlines ls) = ls ++ [""] := by
  induction ls with
  | nil => rfl
  | cons l ls ih =>
    have h1 : oneLine l := h l (by simp)
    have h2 : ∀ x ∈ ls, oneLine x := fun x hx => h x (by simp [hx])
    have : unlines (l :: ls) = l ++ "\n" ++ unlines ls := rfl
    rw [this, textLines_line _ _ h1, ih h2]
    simp

theorem directives_unlines (key : String) (ls : List String) (h : ∀ l ∈ ls, oneLine l) :
    directives key (unlines ls) = ls.filter (isDirective key) := by
  unfold directives
  rw [textLines_unlines ls h, List.filter_append]
  have : List.filter (isDirective key) [""] = [] := by
    simp [isDirective]
  rw [this]; simp

theorem takeWhile_append_stop {α : Type} (q : α → Bool) (a b : List α) (h : ∃ x ∈ a, q x = false) :
    (a ++ b).takeWhile q = a.takeWhile q := by
  induction a with
  | nil => simp at h
  | cons x xs ih =>
    by_cases hx : q x = true
    · have : ∃ y ∈ xs, q y = false := by
        obtain ⟨y, hy, hq⟩ := h
        rcases List.mem_cons.1 hy with e | e
        · subst e; simp [hx] at hq
        · exact ⟨y, e, hq⟩
      simp [List.takeWhile, hx, ih this]
    · simp [List.takeWhile, hx]

theorem isDirective_append (key pre v : String) (h : '=' ∈ pre.data) :
    isDirective key (pre ++ v) = isDirective key pre := by
  have h1 : (pre.data ++ v.data).takeWhile (fun c => c != '=') = pre.data.takeWhile (fun c => c != '=') :=
    takeWhile_append_stop _ _ _ ⟨'=', h, by simp⟩
  simp [isDirective, lineKey, h1, h]

theorem oneLine_append (a b : String) : oneLine (a ++ b) ↔ oneLine a ∧ oneLine b := by
  simp [oneLine, not_or]

theorem digitChar_ne_lf : ∀ d < 10, Nat.digitChar d ≠ '\n' := by
  decide

theorem toDigitsCore_no_lf (fuel : Nat) : ∀ (n : Nat) (ds : List Char), '\n' ∉ ds →
    '\n' ∉ Nat.toDigitsCore 10 fuel n ds := by
  induction fuel with
  | zero => intro n ds h; simpa [Nat.toDigitsCore] using h
  | succ f ih =>
    intro n ds h
    have hd : '\n' ∉ Nat.digitChar (n % 10) :: ds := by
      simp only [List.mem_cons, not_or]
      exact ⟨fun e => digitChar_ne_lf _ (Nat.mod_lt _ (by decide)) e.symm, h⟩
    simp only [Nat.toDigitsCore]
    split
    · exact hd
    · exact ih _ _ hd

theorem oneLine_toString_nat (n : Nat) : oneLine (toString n) := by
  show '\n' ∉ (Nat.repr n).data
  simp only [Nat.repr, Nat.toDigits, List.asString]
  exact toDigitsCore_no_lf _ _ _ (by simp)

theorem oneLine_toString_int (n : Int) : oneLine (toString n) := by
  cases n with
  | ofNat m => exact oneLine_toString_nat m
  | negSucc m =>
    show oneLine ("-" ++ toString (m + 1))
    rw [oneLine_append]
    exact ⟨by decide, oneLine_toString_nat _⟩

set_option maxRecDepth 100000 in
theorem natRules_unlines (extIF : String) : natRules extIF = unlines (natRuleLines extIF ++ [""]) := by
  apply String.ext
  simp [natRules, natRuleLines, unlines]

theorem serverInterfaceSection_unlines (extIF : String) (s : Server) :
    serverInterfaceSection extIF s
      = unlines (serverHeadLines s ++ (if extIF = "" then [] else natRuleLines extIF) ++ [""]) := by
  unfold serverInterfaceSection
  by_cases he : extIF = ""
  · by_cases h6 : s.EnableIPv6 = true <;>
      (apply String.ext; simp [he, h6, serverHeadLines, unlines])
  · rw [natRules_unlines, unlines_append, unlines_append]
    generalize unlines (natRuleLines extIF ++ [""]) = nat
    by_cases h6 : s.EnableIPv6 = true <;>
      (apply String.ext; simp [he, h6, serverHeadLines, unlines])

theorem peerBlock_unlines (p : Peer) : peerBlock p = unlines (peerBlockLines p) := by
  unfold peerBlock peerBlockLines
  split <;> (apply String.ext; simp [unlines, *])

theorem serverContent_eq (extIF : String) (s : Server) (peers : List Peer) :
    serverContent extIF s peers = serverInterfaceSection extIF s ++ peerBlocks peers := by
  unfold serverContent
  generalize serverInterfaceSection extIF s = init
  induction peers generalizing init with
  | nil => simp [peerBlocks]
  | cons p ps ih => simp [List.foldl, ih, peerBlocks, String.append_assoc]

theorem peerBlocks_append (ps qs : List Peer) :
    peerBlocks (ps ++ qs) = peerBlocks ps ++ peerBlocks qs := by
  induction ps with
  | nil => simp [peerBlocks]
  | cons p ps ih => simp [peerBlocks, ih, String.append_assoc]

theorem peerBlocks_unlines (peers : List Peer) :
    peerBlocks peers = unlines (peers.flatMap peerBlockLines) := by
  induction peers with
  | nil => rfl
  | cons p ps ih =>
    have : peerBlocks (p :: ps) = peerBlock p ++ peerBlocks ps := rfl
    rw [this, ih, peerBlock_unlines, List.flatMap_cons, unlines_append]

theorem serverContent_unlines (extIF : String) (s : Server) (peers : List Peer) :
    serverContent extIF s peers = unlines (serverLines extIF s peers) := by
  rw [serverContent_eq, serverInterfaceSection_unlines, peerBlocks_unlines, ← unlines_append]
  simp [serverLines]

theorem oneLine_lit (v : String) (h : v.data.contains '\n' = false) : oneLine v := by
  simpa [oneLine] using h

theorem natRuleLines_oneLine (extIF : String) (h : oneLine extIF) :
    ∀ l ∈ natRuleLines extIF, oneLine l := by
  intro l hl
  simp only [natRuleLines, List.mem_cons, List.mem_singleton, List.not_mem_nil, or_false] at hl
  rcases hl with e | e | e | e | e | e | e | e | e | e | e | e <;> subst e <;>
    first
    | exact oneLine_lit _ (by decide)
    | exact (oneLine_append _ _).2 ⟨(oneLine_append _ _).2 ⟨oneLine_lit _ (by decide), h⟩,
        oneLine_lit _ (by decide)⟩

theorem serverHeadLines_oneLine (s : Server) (h : s.SingleLine) :
    ∀ l ∈ serverHeadLines s, oneLine l := by
  obtain ⟨-, h4, h6, hk, -⟩ := h
  have hport := oneLine_toString_int s.Port
  intro l hl
  have key : ∀ (pre v : String), pre.data.contains '\n' = false → oneLine v → oneLine (pre ++ v) :=
    fun pre v hpre hv => (oneLine_append _ _).2 ⟨oneLine_lit _ hpre, hv⟩
  unfold serverHeadLines at hl
  by_cases e6 : s.EnableIPv6 = true
  · simp only [e6, if_true, List.cons_append, List.nil_append, List.mem_cons, List.mem_singleton,
      List.not_mem_nil, or_false] at hl
    rcases hl with e | e | e | e | e <;> subst e
    · exact oneLine_lit _ (by decide)
    · exact key _ _ (by decide) h4
    · exact key _ _ (by decide) h6
    · exact key _ _ (by decide) hport
    · exact key _ _ (by decide) hk
  · simp only [e6, if_false, List.cons_append, List.nil_append, List.mem_cons, List.mem_singleton,
      List.not_mem_nil, or_false, List.append_nil, Bool.false_eq_true] at hl
    rcases hl with e | e | e | e <;> subst e
    · exact oneLine_lit _ (by decide)
    · exact key _ _ (by decide) h4
    · exact key _ _ (by decide) hport
    · exact key _ _ (by decide) hk

theorem peerBlockLines_oneLine_of (p : Peer) (hk : oneLine p.PublicKey)
    (h4 : oneLine (valOrEmpty p.IPv4)) (h6 : nonEmptyPtr p.IPv6 = true → oneLine (valOrEmpty p.IPv6)) :
    ∀ l ∈ peerBlockLines p, oneLine l := by
  have key : ∀ (pre v : String), pre.data.contains '\n' = false → oneLine v → oneLine (pre ++ v) :=
    fun pre v hpre hv => (oneLine_append _ _).2 ⟨oneLine_lit _ hpre, hv⟩
  intro l hl
  unfold peerBlockLines at hl
  by_cases e6 : nonEmptyPtr p.IPv6 = true
  · simp only [e6, if_true, List.cons_append, List.nil_append, List.mem_cons, List.mem_singleton,
      List.not_mem_nil, or_false] at hl
    rcases hl with e | e | e | e | e <;> subst e
    · exact oneLine_lit _ (by decide)
    · exact key _ _ (by decide) hk
    · exact key _ _ (by decide) h4
    · exact key _ _ (by decide) (h6 e6)
    · exact oneLine_lit _ (by decide)
  · simp only [e6, if_false, List.cons_append, List.nil_append, List.mem_cons, List.mem_singleton,
      List.not_mem_nil, or_false, List.append_nil, Bool.false_eq_true] at hl
    rcases hl with e | e | e | e <;> subst e
    · exact oneLine_lit _ (by decide)
    · exact key _ _ (by decide) hk
    · exact key _ _ (by decide) h4
    · exact oneLine_lit _ (by decide)

theorem peerBlockLines_oneLine (p : Peer) (h : p.SingleLine) :
    ∀ l ∈ peerBlockLines p, oneLine l :=
  peerBlockLines_oneLine_of p h.2.1 h.2.2.1 (fun _ => h.2.2.2)

theorem serverLines_oneLine (extIF : String) (s : Server) (peers : List Peer)
    (he : oneLine extIF) (hs : s.SingleLine) (hp : ∀ p ∈ peers, p.SingleLine) :
    ∀ l ∈ serverLines extIF s peers, oneLine l := by
  intro l hl
  unfold serverLines at hl
  simp only [List.mem_append, List.mem_flatMap, List.mem_singleton] at hl
  rcases hl with ((hl | hl) | hl) | ⟨p, hpm, hl⟩
  · exact serverHeadLines_oneLine s hs l hl
  · by_cases e : extIF = ""
    · simp [e] at hl
    · simp only [e, if_false] at hl
      exact natRuleLines_oneLine extIF he l hl
  · subst hl; exact oneLine_lit _ (by decide)
  · exact peerBlockLines_oneLine p (hp p hpm) l hl

theorem isDirective_kv (key pre v : String) (h : pre.data.contains '=' = true) :
    isDirective key (pre ++ v) = isDirective key pre :=
  isDirective_append key pre v (by simpa using h)

theorem peerBlockLines_allowed (p : Peer) :
    (peerBlockLines p).filter (isDirective "AllowedIPs")
      = ("AllowedIPs = " ++ valOrEmpty p.IPv4) ::
          (if nonEmptyPtr p.IPv6 then ["AllowedIPs = " ++ valOrEmpty p.IPv6] else []) := by
  unfold peerBlockLines
  split <;> simp +decide [List.filter_cons, isDirective_kv]

theorem peerBlockLines_publicKey (p : Peer) :
    (peerBlockLines p).filter (isDirective "PublicKey") = ["PublicKey = " ++ p.PublicKey] := by
  unfold peerBlockLines
  split <;> simp +decide [List.filter_cons, isDirective_kv]

theorem peerBlockLines_other (key : String) (p : Peer)
    (h1 : key ≠ "PublicKey") (h2 : key ≠ "AllowedIPs") :
    (peerBlockLines p).filter (isDirective key) = [] := by
  have e1 : isDirective key "[Peer]" = false := by simp +decide [isDirective]
  have e2 : isDirective key "" = false := by simp +decide [isDirective]
  have e3 : isDirective key "PublicKey = " = false := by
    have : lineKey "PublicKey = " = "PublicKey" := by decide
    simp [isDirective, this, Ne.symm h1]
  have e4 : isDirective key "AllowedIPs = " = false := by
    have : lineKey "AllowedIPs = " = "AllowedIPs" := by decide
    simp [isDirective, this, Ne.symm h2]
  unfold peerBlockLines
  split <;> simp +decide [List.filter_cons, isDirective_kv, e1, e2, e3, e4]

theorem flatMap_peerBlockLines_filter (key : String) (f : Peer → List String) (peers : List Peer)
    (h : ∀ p, (peerBlockLines p).filter (isDirective key) = f p) :
    (peers.flatMap peerBlockLines).filter (isDirective key) = peers.flatMap f := by
  induction peers with
  | nil => rfl
  | cons p ps ih => simp [List.flatMap_cons, List.filter_append, ih, h]

theorem serverHeadLines_filter (key : String) (s : Server)
    (h1 : key ≠ "Address") (h2 : key ≠ "ListenPort") (h3 : key ≠ "PrivateKey") :
    (serverHeadLines s).filter (isDirective key) = [] := by
  have e1 : isDirective key "[Interface]" = false := by simp +decide [isDirective]
  have e2 : isDirective key "Address = " = false := by
    have : lineKey "Address = " = "Address" := by decide
    simp [isDirective, this, Ne.symm h1]
  have e3 : isDirective key "ListenPort = " = false := by
    have : lineKey "ListenPort = " = "ListenPort" := by decide
    simp [isDirective, this, Ne.symm h2]
  have e4 : isDirective key "PrivateKey = " = false := by
    have : lineKey "PrivateKey = " = "PrivateKey" := by decide
    simp [isDirective, this, Ne.symm h3]
  unfold serverHeadLines
  split <;> simp +decide [List.filter_cons, isDirective_kv, e1, e2, e3, e4]

set_option maxRecDepth 100000 in
theorem natRuleLines_postUp (extIF : String) :
    (natRuleLines extIF).filter (isDirective "PostUp") = (natRuleLines extIF).take 6 := by
  simp +decide [natRuleLines, List.filter_cons, isDirective_kv]

set_option maxRecDepth 100000 in
theorem natRuleLines_postDown (extIF : String) :
    (natRuleLines extIF).filter (isDirective "PostDown") = (natRuleLines extIF).drop 6 := by
  simp +decide [natRuleLines, List.filter_cons, isDirective_kv]

set_option maxRecDepth 100000 in
theorem natRuleLines_publicKey (extIF : String) :
    (natRuleLines extIF).filter (isDirective "PublicKey") = [] := by
  simp +decide [natRuleLines, List.filter_cons, isDirective_kv]

theorem flatMap_singleton_map {α β : Type} (f : α → β) (l : List α) :
    l.flatMap (fun a => [f a]) = l.map f := by
  induction l with
  | nil => rfl
  | cons a as ih => simp [List.flatMap_cons, ih]

theorem flatMap_filter_gen {α β : Type} (q : β → Bool) (g f : α → List β) (l : List α)
    (h : ∀ a, (g a).filter q = f a) : (l.flatMap g).filter q = l.flatMap f := by
  induction l with
  | nil => rfl
  | cons a as ih => simp [List.flatMap_cons, List.filter_append, ih, h]

theorem peerBlockLines_sections (p : Peer) :
    (peerBlockLines p).filter (fun l => l = "[Peer]") = ["[Peer]"] := by
  unfold peerBlockLines
  split <;> simp +decide [List.filter_cons, String.ext_iff]

theorem serverHeadLines_sections (s : Server) :
    (serverHeadLines s).filter (fun l => l = "[Peer]") = [] := by
  unfold serverHeadLines
  split <;> simp +decide [List.filter_cons, String.ext_iff]

set_option maxRecDepth 100000 in
theorem natRuleLines_sections (extIF : String) :
    (natRuleLines extIF).filter (fun l => l = "[Peer]") = [] := by
  simp +decide [natRuleLines, List.filter_cons, String.ext_iff]

set_option maxRecDepth 100000 in
theorem natRuleLines_removed (extIF : String) :
    (natRuleLines extIF).filter (fun l => !(["PostUp", "PostDown"].any (fun k => isDirective k l)))
      = [] := by
  simp +decide [natRuleLines, List.filter_cons, isDirective_kv]

theorem peerContent_unlines (s : Server) (p : Peer) :
    peerContent s p = unlines (peerContentLines s p) := by
  unfold peerContent peerInterfaceSection peerServerSection peerContentLines
  by_cases h1 : (s.EnableIPv6 && nonEmptyPtr p.IPv6) = true <;>
    by_cases h2 : (s.EnableIPv6 && s.SubnetV6 != "") = true <;>
      (apply String.ext; simp only [h1, h2]; simp [unlines])

theorem stringsContains_colon (a : String) : stringsContains a ":" = true ↔ ':' ∈ a.data := by
  unfold stringsContains
  have : ":".data = [':'] := rfl
  rw [this]
  generalize a.data = l
  induction l with
  | nil => simp [List.isPrefixOf]
  | cons c cs ih =>
    simp only [List.tails, List.any_cons, Bool.or_eq_true, ih, List.mem_cons]
    have : ([':'].isPrefixOf (c :: cs) = true) ↔ ':' = c := by
      simp [List.isPrefixOf]
    rw [this]

theorem oneLine_endpointIP (s : Server) (h : oneLine s.PublicIP) : oneLine (endpointIP s) := by
  unfold endpointIP
  split
  · exact (oneLine_append _ _).2 ⟨(oneLine_append _ _).2 ⟨oneLine_lit _ (by decide), h⟩,
      oneLine_lit _ (by decide)⟩
  · exact h

theorem peerContentLines_oneLine (s : Server) (p : Peer) (hs : s.SingleLine)
    (hk : oneLine p.PrivateKey) (h4 : oneLine (valOrEmpty p.IPv4))
    (h6 : s.EnableIPv6 = true → oneLine (valOrEmpty p.IPv6)) :
    ∀ l ∈ peerContentLines s p, oneLine l := by
  obtain ⟨hip, s4, s6, -, spk⟩ := hs
  have key : ∀ (pre v : String), pre.data.contains '\n' = false → oneLine v → oneLine (pre ++ v) :=
    fun pre v hpre hv => (oneLine_append _ _).2 ⟨oneLine_lit _ hpre, hv⟩
  have haddr : oneLine (if s.EnableIPv6 && nonEmptyPtr p.IPv6
      then valOrEmpty p.IPv4 ++ ", " ++ valOrEmpty p.IPv6 else valOrEmpty p.IPv4) := by
    split
    · rename_i h
      have e6 : s.EnableIPv6 = true := by
        simp only [Bool.and_eq_true] at h
        exact h.1
      exact (oneLine_append _ _).2 ⟨(oneLine_append _ _).2 ⟨h4, oneLine_lit _ (by decide)⟩, h6 e6⟩
    · exact h4
  have hend : oneLine (endpointIP s ++ ":" ++ toString s.Port) :=
    (oneLine_append _ _).2 ⟨(oneLine_append _ _).2 ⟨oneLine_endpointIP s hip,
      oneLine_lit _ (by decide)⟩, oneLine_toString_int _⟩
  intro l hl
  unfold peerContentLines at hl
  simp only [List.mem_append, List.mem_cons, List.mem_singleton, List.not_mem_nil, or_false] at hl
  rcases hl with (e | e | e | e | e | e | e | e | e) | hl
  · subst e; exact oneLine_lit _ (by decide)
  · subst e; exact key _ _ (by decide) hk
  · subst e; exact key _ _ (by decide) haddr
  · subst e; exact oneLine_lit _ (by decide)
  · subst e; exact oneLine_lit _ (by decide)
  · subst e; exact oneLine_lit _ (by decide)
  · subst e; exact key _ _ (by decide) spk
  · subst e; exact key _ _ (by decide) hend
  · subst e; exact key _ _ (by decide) s4
  · split at hl
    · simp only [List.mem_singleton] at hl
      subst hl; exact key _ _ (by decide) s6
    · simp at hl

theorem peerContentLines_filter (key : String) (s : Server) (p : Peer)
    (h : key = "Endpoint" ∨ key = "Address") :
    (peerContentLines s p).filter (isDirective key)
      = if key = "Address" then
          ["Address = " ++ (if s.EnableIPv6 && nonEmptyPtr p.IPv6
            then valOrEmpty p.IPv4 ++ ", " ++ valOrEmpty p.IPv6 else valOrEmpty p.IPv4)]
        else ["Endpoint = " ++ (endpointIP s ++ ":" ++ toString s.Port)] := by
  unfold peerContentLines
  rcases h with h | h <;> subst h <;>
    by_cases h2 : (s.EnableIPv6 && s.SubnetV6 != "") = true <;>
      (simp only [h2]; simp +decide [List.filter_cons, isDirective_kv])

/-! ## The server render (`GenerateServerConfig`) -/

theorem joinLines_unlines (ls : List String) : joinLines (ls ++ [""]) = unlines ls := by
  induction ls with
  | nil => rfl
  | cons l ls ih =>
    cases ls with
    | nil => simp [joinLines, unlines]
    | cons m ms =>
      have : joinLines (l :: m :: (ms ++ [""])) = l ++ "\n" ++ joinLines (m :: (ms ++ [""])) := rfl
      simp only [List.cons_append] at ih ⊢
      rw [this, ih]
      rfl

theorem directives_serverContent (key : String) (extIF : String) (s : Server) (peers : List Peer)
    (he : oneLine extIF) (hs : s.SingleLine) (hp : ∀ p ∈ peers, p.SingleLine) :
    directives key (serverContent extIF s peers)
      = (serverLines extIF s peers).filter (isDirective key) := by
  rw [serverContent_unlines, directives_unlines key _ (serverLines_oneLine extIF s peers he hs hp)]

/-- C2: in the server render the block of a peer is appended in place, a peer with only an IPv4
address gets exactly one `AllowedIPs` line carrying that address, and a peer with both an IPv4
and an IPv6 address gets exactly two, the IPv4 one first. The text of the block is given for
every peer; the count of lines read back from the text is for single-line field values. -/
theorem server_render_allowed_ips (extIF : String) (s : Server) (before after : List Peer)
    (p : Peer) :
    serverContent extIF s (before ++ p :: after)
        = serverContent extIF s before ++ peerBlock p ++ peerBlocks after
    ∧ (∀ a4, p.IPv4 = some a4 → a4 ≠ "" → nonEmptyPtr p.IPv6 = false →
        peerBlock p
            = "[Peer]\n" ++ ("PublicKey = " ++ p.PublicKey ++ "\n")
                ++ ("AllowedIPs = " ++ a4 ++ "\n\n")
          ∧ (oneLine p.PublicKey → oneLine a4 →
              directives "AllowedIPs" (peerBlock p) = ["AllowedIPs = " ++ a4]))
    ∧ (∀ a4 a6, p.IPv4 = some a4 → a4 ≠ "" → p.IPv6 = some a6 → a6 ≠ "" →
        peerBlock p
            = "[Peer]\n" ++ ("PublicKey = " ++ p.PublicKey ++ "\n")
                ++ ("AllowedIPs = " ++ a4 ++ "\n") ++ ("AllowedIPs = " ++ a6 ++ "\n\n")
          ∧ (oneLine p.PublicKey → oneLine a4 → oneLine a6 →
              directives "AllowedIPs" (peerBlock p)
                = ["AllowedIPs = " ++ a4, "AllowedIPs = " ++ a6])) := by
  refine ⟨?_, ?_, ?_⟩
  · rw [serverContent_eq, serverContent_eq, peerBlocks_append]
    simp [peerBlocks, String.append_assoc]
  · intro a4 h4 _ h6
    refine ⟨by simp [peerBlock, h4, h6, valOrEmpty], ?_⟩
    intro hk ha
    have hl : ∀ l ∈ peerBlockLines p, oneLine l :=
      peerBlockLines_oneLine_of p hk (by simpa [h4, valOrEmpty] using ha) (by simp [h6])
    rw [peerBlock_unlines, directives_unlines _ _ hl, peerBlockLines_allowed]
    simp [h4, h6, valOrEmpty]
  · intro a4 a6 h4 _ h6 hne
    have hn : nonEmptyPtr p.IPv6 = true := by simp [nonEmptyPtr, h6, hne]
    have hn2 : nonEmptyPtr (some a6) = true := by simp [nonEmptyPtr, hne]
    refine ⟨by simp [peerBlock, h4, h6, hn2, valOrEmpty], ?_⟩
    intro hk ha hb
    have hl : ∀ l ∈ peerBlockLines p, oneLine l :=
      peerBlockLines_oneLine_of p hk (by simpa [h4, valOrEmpty] using ha)
        (fun _ => by simpa [h6, valOrEmpty] using hb)
    rw [peerBlock_unlines, directives_unlines _ _ hl, peerBlockLines_allowed]
    simp [h4, h6, hn2, valOrEmpty]

theorem server_render_allowed_ips_witness :
    directives "AllowedIPs" (peerBlock peerV4) = ["AllowedIPs = 10.8.0.2/32"]
    ∧ directives "AllowedIPs" (peerBlock peerDual)
        = ["AllowedIPs = 10.8.0.3/32", "AllowedIPs = fd42::3/128"] :=
  ⟨((server_render_allowed_ips "eth0" sampleServer [] [] peerV4).2.1 "10.8.0.2/32" rfl
      (by decide) rfl).2 (by decide) (by decide),
   ((server_render_allowed_ips "eth0" sampleServer [] [] peerDual).2.2 "10.8.0.3/32" "fd42::3/128"
      rfl (by decide) rfl (by decide)).2 (by decide) (by decide) (by decide)⟩

theorem serverContent_sections (extIF : String) (s : Server) (peers : List Peer)
    (he : oneLine extIF) (hs : s.SingleLine) (hp : ∀ p ∈ peers, p.SingleLine) :
    (textLines (serverContent extIF s peers)).filter (fun l => l = "[Peer]")
      = peers.map (fun _ => "[Peer]") := by
  rw [serverContent_unlines, textLines_unlines _ (serverLines_oneLine extIF s peers he hs hp)]
  unfold serverLines
  rw [List.filter_append, List.filter_append, List.filter_append, List.filter_append,
    serverHeadLines_sections, flatMap_filter_gen _ _ _ peers peerBlockLines_sections]
  have h1 : (if extIF = "" then [] else natRuleLines extIF).filter (fun l => l = "[Peer]")
      = [] := by
    split
    · rfl
    · exact natRuleLines_sections extIF
  rw [h1]
  have h2 : List.filter (fun l => decide (l = "[Peer]")) [""] = [] := by decide
  rw [h2]
  simp [flatMap_singleton_map]

/-- C9: the server render is the interface section followed by one `[Peer]` block per supplied
peer in the order supplied, rendering a concatenation of peer lists appends the blocks of the
second list to the render of the first, and (for single-line field values) the `PublicKey` lines
of the text are the peers' public keys in order, with one `[Peer]` line per peer. -/
theorem server_render_peer_order (extIF : String) (s : Server) (peers : List Peer) :
    serverContent extIF s peers = serverInterfaceSection extIF s ++ peerBlocks peers
    ∧ (∀ ps qs : List Peer,
        serverContent extIF s (ps ++ qs) = serverContent extIF s ps ++ peerBlocks qs)
    ∧ (oneLine extIF → s.SingleLine → (∀ p ∈ peers, p.SingleLine) →
        directives "PublicKey" (serverContent extIF s peers)
            = peers.map (fun p => "PublicKey = " ++ p.PublicKey)
          ∧ ((textLines (serverContent extIF s peers)).filter (fun l => l = "[Peer]")).length
              = peers.length) := by
  refine ⟨serverContent_eq extIF s peers, ?_, ?_⟩
  · intro ps qs
    rw [serverContent_eq, serverContent_eq, peerBlocks_append, String.append_assoc]
  · intro he hs hp
    constructor
    · rw [directives_serverContent _ _ _ _ he hs hp]
      unfold serverLines
      rw [List.filter_append, List.filter_append, List.filter_append,
        serverHeadLines_filter _ s (by decide) (by decide) (by decide),
        flatMap_peerBlockLines_filter _ _ peers peerBlockLines_publicKey]
      have h1 : (if extIF = "" then [] else natRuleLines extIF).filter (isDirective "PublicKey")
          = [] := by
        split
        · rfl
        · exact natRuleLines_publicKey extIF
      rw [h1]
      have h2 : List.filter (isDirective "PublicKey") [""] = [] := by decide
      rw [h2]
      simp [flatMap_singleton_map]
    · rw [serverContent_sections extIF s peers he hs hp]
      simp

theorem server_render_peer_order_witness :
    directives "PublicKey" (serverContent "eth0" sampleServer [peerV4, peerDual])
        = ["PublicKey = cGVlcjEtcHVibGlj", "PublicKey = cGVlcjItcHVibGlj"]
    ∧ ((textLines (serverContent "eth0" sampleServer [peerV4, peerDual])).filter
        (fun l => l = "[Peer]")).length = 2 :=
  (server_render_peer_order "eth0" sampleServer [peerV4, peerDual]).2.2 (by decide) (by decide)
    (by decide)

theorem serverLines_remove_nat (extIF : String) (s : Server) (peers : List Peer) :
    (serverLines extIF s peers).filter
        (fun l => !(["PostUp", "PostDown"].any (fun k => isDirective k l)))
      = serverLines "" s peers := by
  have keep : ∀ (ls : List String), ls.filter (isDirective "PostUp") = [] →
      ls.filter (isDirective "PostDown") = [] →
      ls.filter (fun l => !(["PostUp", "PostDown"].any (fun k => isDirective k l))) = ls := by
    intro ls h1 h2
    rw [List.filter_eq_self]
    intro l hl
    have a1 := (List.filter_eq_nil_iff.1 h1) l hl
    have a2 := (List.filter_eq_nil_iff.1 h2) l hl
    simp [a1, a2]
  have hhead := keep (serverHeadLines s)
    (serverHeadLines_filter _ s (by decide) (by decide) (by decide))
    (serverHeadLines_filter _ s (by decide) (by decide) (by decide))
  have hpeers := keep (peers.flatMap peerBlockLines)
    (by rw [flatMap_peerBlockLines_filter _ (fun _ => []) peers
          (fun p => peerBlockLines_other _ p (by decide) (by decide))]; simp)
    (by rw [flatMap_peerBlockLines_filter _ (fun _ => []) peers
          (fun p => peerBlockLines_other _ p (by decide) (by decide))]; simp)
  have hnat : (if extIF = "" then [] else natRuleLines extIF).filter
      (fun l => !(["PostUp", "PostDown"].any (fun k => isDirective k l))) = [] := by
    split
    · rfl
    · exact natRuleLines_removed extIF
  have hblank : List.filter (fun l => !(["PostUp", "PostDown"].any (fun k => isDirective k l))) [""]
      = [""] := by decide
  unfold serverLines
  rw [List.filter_append, List.filter_append, List.filter_append, hhead, hpeers, hnat, hblank]
  simp

/-- C10: with a known external interface the server render holds, between the `PrivateKey` line
and the blank line that ends the interface section, exactly the twelve firewall and NAT lines
(six `PostUp`, six `PostDown`, three of each for `iptables` and three for `ip6tables`, the
masquerade ones naming the interface); with none known it holds no `PostUp` or `PostDown` line
and is the known-interface render with those twelve lines removed. The decompositions hold for
every input; the lines read back from the text are for single-line field values. -/
theorem server_render_nat_block (extIF : String) (s : Server) (peers : List Peer) :
    (extIF ≠ "" →
      serverContent extIF s peers
          = unlines (serverHeadLines s) ++ unlines (natRuleLines extIF) ++ "\n" ++ peerBlocks peers
        ∧ (oneLine extIF → s.SingleLine → (∀ p ∈ peers, p.SingleLine) →
            directives "PostUp" (serverContent extIF s peers)
                = [ "PostUp   = iptables -A FORWARD -i %i -j ACCEPT",
                    "PostUp   = iptables -A FORWARD -o %i -j ACCEPT",
                    "PostUp   = iptables -t nat -A POSTROUTING -o " ++ extIF ++ " -j MASQUERADE",
                    "PostUp   = ip6tables -A FORWARD -i %i -j ACCEPT",
                    "PostUp   = ip6tables -A FORWARD -o %i -j ACCEPT",
                    "PostUp   = ip6tables -t nat -A POSTROUTING -o " ++ extIF ++ " -j MASQUERADE" ]
              ∧ directives "PostDown" (serverContent extIF s peers)
                = [ "PostDown = iptables -D FORWARD -i %i -j ACCEPT",
                    "PostDown = iptables -D FORWARD -o %i -j ACCEPT",
                    "PostDown = iptables -t nat -D POSTROUTING -o " ++ extIF ++ " -j MASQUERADE",
                    "PostDown = ip6tables -D FORWARD -i %i -j ACCEPT",
                    "PostDown = ip6tables -D FORWARD -o %i -j ACCEPT",
                    "PostDown = ip6tables -t nat -D POSTROUTING -o " ++ extIF ++ " -j MASQUERADE" ]
              ∧ removeDirectives ["PostUp", "PostDown"] (serverContent extIF s peers)
                = serverContent "" s peers))
    ∧ serverContent "" s peers = unlines (serverHeadLines s) ++ "\n" ++ peerBlocks peers
    ∧ (s.SingleLine → (∀ p ∈ peers, p.SingleLine) →
        directives "PostUp" (serverContent "" s peers) = []
          ∧ directives "PostDown" (serverContent "" s peers) = []) := by
  have hfilter : ∀ (key : String) (e : String), key = "PostUp" ∨ key = "PostDown" →
      (serverLines e s peers).filter (isDirective key)
        = (if e = "" then [] else natRuleLines e).filter (isDirective key) := by
    intro key e hkey
    have hne : key ≠ "Address" ∧ key ≠ "ListenPort" ∧ key ≠ "PrivateKey" ∧ key ≠ "PublicKey"
        ∧ key ≠ "AllowedIPs" := by
      rcases hkey with h | h <;> subst h <;> decide
    have h2 : List.filter (isDirective key) [""] = [] := by
      rcases hkey with h | h <;> subst h <;> decide
    unfold serverLines
    rw [List.filter_append, List.filter_append, List.filter_append,
      serverHeadLines_filter _ s hne.1 hne.2.1 hne.2.2.1,
      flatMap_peerBlockLines_filter _ (fun _ => []) peers
        (fun p => peerBlockLines_other key p hne.2.2.2.1 hne.2.2.2.2), h2]
    simp
  refine ⟨?_, ?_, ?_⟩
  · intro hext
    constructor
    · have hnl : unlines [""] = "\n" := rfl
      rw [serverContent_eq, serverInterfaceSection_unlines]
      simp only [hext, if_false, unlines_append, hnl, String.append_assoc]
    · intro he hs hp
      refine ⟨?_, ?_, ?_⟩
      · rw [directives_serverContent _ _ _ _ he hs hp, hfilter _ _ (Or.inl rfl)]
        simp only [hext, if_false]
        rw [natRuleLines_postUp]
        rfl
      · rw [directives_serverContent _ _ _ _ he hs hp, hfilter _ _ (Or.inr rfl)]
        simp only [hext, if_false]
        rw [natRuleLines_postDown]
        rfl
      · unfold removeDirectives
        rw [serverContent_unlines,
          textLines_unlines _ (serverLines_oneLine extIF s peers he hs hp), List.filter_append,
          serverLines_remove_nat, serverContent_unlines]
        have : List.filter (fun l => !(["PostUp", "PostDown"].any (fun k => isDirective k l))) [""]
            = [""] := by decide
        rw [this, joinLines_unlines]
  · have hnl : unlines [""] = "\n" := rfl
    have hnil : unlines [] = "" := rfl
    rw [serverContent_eq, serverInterfaceSection_unlines]
    simp only [if_true, unlines_append, hnl, hnil, String.append_assoc, String.empty_append]
  · intro hs hp
    have he : oneLine "" := by decide
    constructor
    · rw [directives_serverContent _ _ _ _ he hs hp, hfilter _ _ (Or.inl rfl)]
      rfl
    · rw [directives_serverContent _ _ _ _ he hs hp, hfilter _ _ (Or.inr rfl)]
      rfl

theorem server_render_nat_block_witness :
    (directives "PostUp" (serverContent "eth0" sampleServer [peerV4, peerDual])).length = 6
    ∧ (directives "PostDown" (serverContent "eth0" sampleServer [peerV4, peerDual])).length = 6
    ∧ removeDirectives ["PostUp", "PostDown"] (serverContent "eth0" sampleServer [peerV4, peerDual])
        = serverContent "" sampleServer [peerV4, peerDual]
    ∧ directives "PostUp" (serverContent "" sampleServer [peerV4, peerDual]) = [] :=
  have h := server_render_nat_block "eth0" sampleServer [peerV4, peerDual]
  have a := (h.1 (by decide)).2 (by decide) (by decide) (by decide)
  ⟨by rw [a.1]; rfl, by rw [a.2.1]; rfl, a.2.2, (h.2.2 (by decide) (by decide)).1⟩

/-! ## The peer render (`GeneratePeerConfig`) -/

/-- C1: the `Endpoint` line of the peer render is `Endpoint = [<address>]:<port>` when the
server's public address holds a colon, as every IPv6 literal does, and
`Endpoint = <address>:<port>` when it is made of digits and dots, as every IPv4 literal is. The
place of the line in the text is given for every input; the line read back from the text is for
single-line field values. -/
theorem peer_render_endpoint (s : Server) (p : Peer) :
    (':' ∈ s.PublicIP.data →
      peerContent s p
          = peerInterfaceSection s p ++ ("[Peer]\n" ++ ("PublicKey = " ++ s.PublicKey ++ "\n"))
              ++ ("Endpoint = [" ++ s.PublicIP ++ "]:" ++ toString s.Port ++ "\n")
              ++ (if s.EnableIPv6 && s.SubnetV6 != "" then
                    "AllowedIPs = " ++ s.SubnetV4 ++ "\n" ++ ("AllowedIPs = " ++ s.SubnetV6 ++ "\n")
                  else "AllowedIPs = " ++ s.SubnetV4 ++ "\n")
        ∧ (s.SingleLine → p.SingleLine →
            directives "Endpoint" (peerContent s p)
              = ["Endpoint = [" ++ s.PublicIP ++ "]:" ++ toString s.Port]))
    ∧ ((∀ c ∈ s.PublicIP.data, c.isDigit = true ∨ c = '.') →
      peerContent s p
          = peerInterfaceSection s p ++ ("[Peer]\n" ++ ("PublicKey = " ++ s.PublicKey ++ "\n"))
              ++ ("Endpoint = " ++ s.PublicIP ++ ":" ++ toString s.Port ++ "\n")
              ++ (if s.EnableIPv6 && s.SubnetV6 != "" then
                    "AllowedIPs = " ++ s.SubnetV4 ++ "\n" ++ ("AllowedIPs = " ++ s.SubnetV6 ++ "\n")
                  else "AllowedIPs = " ++ s.SubnetV4 ++ "\n")
        ∧ (s.SingleLine → p.SingleLine →
            directives "Endpoint" (peerContent s p)
              = ["Endpoint = " ++ s.PublicIP ++ ":" ++ toString s.Port])) := by
  have hdir : s.SingleLine → p.SingleLine → directives "Endpoint" (peerContent s p)
      = ["Endpoint = " ++ (endpointIP s ++ ":" ++ toString s.Port)] := by
    intro hs hp
    rw [peerContent_unlines, directives_unlines _ _
      (peerContentLines_oneLine s p hs hp.1 hp.2.2.1 (fun _ => hp.2.2.2)),
      peerContentLines_filter _ s p (Or.inl rfl)]
    simp
  constructor
  · intro h6
    have hc : stringsContains s.PublicIP ":" = true := (stringsContains_colon _).2 h6
    have he : endpointIP s = "[" ++ s.PublicIP ++ "]" := by simp [endpointIP, hc]
    constructor
    · unfold peerContent peerServerSection
      rw [he]
      split <;> (apply String.ext; simp)
    · intro hs hp
      rw [hdir hs hp, he]
      simp [String.ext_iff]
  · intro h4
    have hn : ':' ∉ s.PublicIP.data := by
      intro hmem
      rcases h4 _ hmem with h | h
      · exact absurd h (by decide)
      · exact absurd h (by decide)
    have hc : stringsContains s.PublicIP ":" = false := by
      cases h : stringsContains s.PublicIP ":"
      · rfl
      · exact absurd ((stringsContains_colon _).1 h) hn
    have he : endpointIP s = s.PublicIP := by simp [endpointIP, hc]
    constructor
    · unfold peerContent peerServerSection
      rw [he]
      split <;> (apply String.ext; simp)
    · intro hs hp
      rw [hdir hs hp, he]
      simp [String.ext_iff]

theorem peer_render_endpoint_witness :
    directives "Endpoint" (peerContent sampleServer peerDual) = ["Endpoint = [2001:db8::1]:51820"]
    ∧ directives "Endpoint" (peerContent sampleServerV4 peerDual)
        = ["Endpoint = 203.0.113.5:51820"] :=
  ⟨(((peer_render_endpoint sampleServer peerDual).1 (by decide)).2 (by decide) (by decide)).trans
      (by decide),
   (((peer_render_endpoint sampleServerV4 peerDual).2 (by decide)).2 (by decide) (by decide)).trans
      (by decide)⟩

/-- C3: with `EnableIPv6 = false` the interface section of the peer render is the private key,
the line `Address = <peer IPv4>` and the MTU, whatever the peer's IPv6 field holds; the whole
render is the same for every value of that field; and (for single-line field values) the only
`Address` line of the text is `Address = <peer IPv4>`. -/
theorem peer_render_address_ipv6_off (s : Server) (p : Peer) (h : s.EnableIPv6 = false) :
    peerInterfaceSection s p
        = "[Interface]\n" ++ ("PrivateKey = " ++ p.PrivateKey ++ "\n")
            ++ ("Address = " ++ valOrEmpty p.IPv4 ++ "\n") ++ "MTU = 1420\n\n"
    ∧ (∀ v6 : Option String, peerContent s { p with IPv6 := v6 } = peerContent s p)
    ∧ (s.SingleLine → oneLine p.PrivateKey → oneLine (valOrEmpty p.IPv4) →
        directives "Address" (peerContent s p) = ["Address = " ++ valOrEmpty p.IPv4]) := by
  refine ⟨by simp [peerInterfaceSection, h], ?_, ?_⟩
  · intro v6
    simp [peerContent, peerInterfaceSection, h]
  · intro hs hk h4
    rw [peerContent_unlines, directives_unlines _ _
      (peerContentLines_oneLine s p hs hk h4 (fun e => by simp [h] at e)),
      peerContentLines_filter _ s p (Or.inr rfl)]
    simp [h]

theorem peer_render_address_ipv6_off_witness :
    peerDual.IPv6 = some "fd42::3/128"
    ∧ directives "Address" (peerContent sampleServerV4 peerDual) = ["Address = 10.8.0.3/32"] :=
  ⟨rfl, (peer_render_address_ipv6_off sampleServerV4 peerDual rfl).2.2 (by decide) (by decide)
    (by decide)⟩

/-! ## Interface detection (`DetectDefaultInterface`) -/

theorem fieldsGo_dropWhile (l : List Char) :
    fieldsGo (l.dropWhile isSpace) [] = fieldsGo l [] := by
  induction l with
  | nil => rfl
  | cons c cs ih =>
    by_cases h : isSpace c = true
    · simp [List.dropWhile, h, fieldsGo, ih]
    · simp [List.dropWhile, h]

theorem fieldsGo_concat_space (c : Char) (h : isSpace c = true) (l : List Char) :
    ∀ cur, fieldsGo (l ++ [c]) cur = fieldsGo l cur := by
  induction l with
  | nil => intro cur; by_cases hc : cur = [] <;> simp [fieldsGo, h, hc]
  | cons d ds ih =>
    intro cur
    by_cases hd : isSpace d = true
    · by_cases hc : cur = [] <;> simp [fieldsGo, hd, hc, ih]
    · simp [fieldsGo, hd, ih]

theorem fieldsGo_rdropWhile (l : List Char) (cur : List Char) :
    fieldsGo (l.rdropWhile isSpace) cur = fieldsGo l cur := by
  induction l using List.reverseRecOn with
  | nil => simp
  | append_singleton l c ih =>
    by_cases h : isSpace c = true
    · rw [List.rdropWhile_concat_pos _ _ _ h, ih, fieldsGo_concat_space c h]
    · rw [List.rdropWhile_concat_neg _ _ _ h]

theorem Fields_TrimSpace (s : String) : Fields (TrimSpace s) = Fields s := by
  unfold Fields TrimSpace
  simp only
  rw [fieldsGo_rdropWhile, fieldsGo_dropWhile]

theorem findDev_first (parts : List String) (i : Nat) (d : String)
    (hdev : parts[i]? = some "dev") (hfirst : ∀ j < i, parts[j]? ≠ some "dev")
    (hnext : parts[i + 1]? = some d) : findDev parts = some d := by
  induction i generalizing parts with
  | zero =>
    match parts, hdev, hnext with
    | a :: b :: rest, hdev, hnext =>
      simp only [List.getElem?_cons_zero, Option.some.injEq] at hdev
      simp only [List.getElem?_cons_succ, List.getElem?_cons_zero, Option.some.injEq] at hnext
      simp [findDev, hdev, hnext]
    | [_], _, hnext => simp at hnext
    | [], hdev, _ => simp at hdev
  | succ n ih =>
    match parts, hdev, hfirst, hnext with
    | a :: b :: rest, hdev, hfirst, hnext =>
      have ha : a ≠ "dev" := by
        have := hfirst 0 (Nat.succ_pos n)
        simpa using this
      simp only [findDev, ha, if_false]
      apply ih
      · simpa using hdev
      · intro j hj
        have := hfirst (j + 1) (Nat.succ_lt_succ hj)
        simpa using this
      · simpa using hnext
    | [_], hdev, _, hnext => simp at hnext
    | [], hdev, _, _ => simp at hdev

/-- C4: when `ip route show default` succeeds and the whitespace-separated fields of its output
hold `dev` with a field after it, `DetectDefaultInterface` returns, without error, the field
right after the first `dev`, having started that one process and opened no file. -/
theorem detect_returns_field_after_dev (env : Env) (k : Nat)
    (hok : (env.exec "ip" ["route", "show", "default"] "").err = none)
    (hdev : (Fields (env.exec "ip" ["route", "show", "default"] "").stdout)[k]? = some "dev")
    (hnext : k + 1 < (Fields (env.exec "ip" ["route", "show", "default"] "").stdout).length) :
    ∃ i d, i ≤ k
      ∧ (Fields (env.exec "ip" ["route", "show", "default"] "").stdout)[i]? = some "dev"
      ∧ (∀ j < i, (Fields (env.exec "ip" ["route", "show", "default"] "").stdout)[j]? ≠ some "dev")
      ∧ (Fields (env.exec "ip" ["route", "show", "default"] "").stdout)[i + 1]? = some d
      ∧ DetectDefaultInterface env
          = (.ok d, [Event.exec "ip" ["route", "show", "default"] ""]) := by
  generalize hparts : Fields (env.exec "ip" ["route", "show", "default"] "").stdout = parts
    at hdev hnext
  have hex : ∃ i, parts[i]? = some "dev" := ⟨k, hdev⟩
  have hle : Nat.find hex ≤ k := Nat.find_le hdev
  have hlt : Nat.find hex + 1 < parts.length := by omega
  have hfirst : ∀ j < Nat.find hex, parts[j]? ≠ some "dev" := fun j hj => Nat.find_min hex hj
  obtain ⟨d, hd⟩ : ∃ d, parts[Nat.find hex + 1]? = some d :=
    ⟨_, List.getElem?_eq_getElem hlt⟩
  refine ⟨Nat.find hex, d, hle, Nat.find_spec hex, hfirst, hd, ?_⟩
  have h : findDev (Fields (TrimSpace (env.exec "ip" ["route", "show", "default"] "").stdout))
      = some d := by
    rw [Fields_TrimSpace, hparts]
    exact findDev_first parts _ _ (Nat.find_spec hex) hfirst hd
  simp [DetectDefaultInterface, hok, h]

theorem detect_returns_field_after_dev_witness :
    (sampleEnv.exec "ip" ["route", "show", "default"] "").stdout
        = "default via 10.0.0.1 dev eth0 proto dhcp src 10.0.0.5\n"
    ∧ DetectDefaultInterface sampleEnv
        = (.ok "eth0", [Event.exec "ip" ["route", "show", "default"] ""]) := by
  obtain ⟨i, d, hi, hdev, -, hd, h⟩ :=
    detect_returns_field_after_dev sampleEnv 3 rfl (by decide) (by decide)
  have hparts : Fields (sampleEnv.exec "ip" ["route", "show", "default"] "").stdout
      = ["default", "via", "10.0.0.1", "dev", "eth0", "proto", "dhcp", "src", "10.0.0.5"] := by
    decide
  rw [hparts] at hdev hd
  have hdev0 : d = "eth0" := by
    interval_cases i <;> simp_all
  subst hdev0
  exact ⟨rfl, h⟩

/-! ## Service control (`WGStart`) -/

/-- C5: when no file exists at the server config path, `WGStart` answers with the
config-missing failure and leaves the world, and with it the record of started processes,
exactly as it was; whenever `WGStart` does start a process the file exists; and when the file
exists and can be inspected the one process started is `systemctl --now enable <unit>`. -/
theorem start_requires_config (env : Env) (w : World) :
    (w.fs.read (serverConfPath (LoadConfig env.getenv)) = none →
      WGStart env w
        = (⟨400, [("error", (LoadConfig env.getenv).WGInterface ++ ".conf" ++ " not found in "
              ++ (LoadConfig env.getenv).WGConfDir)]⟩, w))
    ∧ ((WGStart env w).2.trace ≠ w.trace →
        w.fs.read (serverConfPath (LoadConfig env.getenv)) ≠ none)
    ∧ (w.fs.read (serverConfPath (LoadConfig env.getenv)) ≠ none →
        env.fsErr (.stat (serverConfPath (LoadConfig env.getenv))) = none →
        (WGStart env w).2.trace
          = w.trace ++ [Event.exec "systemctl" ["--now", "enable",
              (LoadConfig env.getenv).WGMode ++ "-quick@" ++ (LoadConfig env.getenv).WGInterface]
              ""]) := by
  have hmiss : w.fs.read (serverConfPath (LoadConfig env.getenv)) = none →
      WGStart env w
        = (⟨400, [("error", (LoadConfig env.getenv).WGInterface ++ ".conf" ++ " not found in "
              ++ (LoadConfig env.getenv).WGConfDir)]⟩, w) := by
    intro h
    simp only [WGStart, Stat, h]
    rfl
  refine ⟨hmiss, ?_, ?_⟩
  · intro htrace hnone
    rw [hmiss hnone] at htrace
    exact htrace rfl
  · intro hsome hstat
    obtain ⟨content, hc⟩ := Option.ne_none_iff_exists'.1 hsome
    unfold WGStart
    simp only [Stat, hc, hstat]
    unfold runSystemctl
    cases herr : (env.exec "systemctl" ["--now", "enable",
      (LoadConfig env.getenv).WGMode ++ "-quick@" ++ (LoadConfig env.getenv).WGInterface] "").err
      <;> simp [herr]

theorem start_requires_config_witness :
    (WGStart sampleEnv freshWorld).1.status = 400
    ∧ (WGStart sampleEnv freshWorld).2 = freshWorld :=
  have h := (start_requires_config sampleEnv freshWorld).1 (by decide)
  ⟨by rw [h], by rw [h]⟩

/-! ## Writing the files (`GenerateServerConfig`, `GeneratePeerConfig`) -/

theorem MkdirAll_files (env : Env) (dir : String) (fs : FS) :
    (MkdirAll env dir fs).2.files = fs.files := by
  unfold MkdirAll
  cases env.fsErr (.mkdirAll dir) <;> simp
  split <;> rfl

theorem MkdirAll_of_mem (env : Env) (dir : String) (fs : FS) (h : dir ∈ fs.dirs) :
    (MkdirAll env dir fs).2 = fs := by
  unfold MkdirAll
  cases env.fsErr (.mkdirAll dir) <;> simp [h]

theorem MkdirAll_dirs_mono (env : Env) (dir d : String) (fs : FS) (h : d ∈ fs.dirs) :
    d ∈ (MkdirAll env dir fs).2.dirs := by
  unfold MkdirAll
  cases env.fsErr (.mkdirAll dir) <;> simp [h]
  split <;> simp [h]

theorem MkdirAll_ok (env : Env) (dir : String) (fs : FS) (h : (MkdirAll env dir fs).1 = none) :
    dir ∈ (MkdirAll env dir fs).2.dirs := by
  unfold MkdirAll at h ⊢
  cases he : env.fsErr (.mkdirAll dir) with
  | some e => simp [he] at h
  | none =>
    simp only [he]
    by_cases hm : dir ∈ fs.dirs <;> simp [hm]

theorem ensureDirs_files (env : Env) (cfg : Config) (fs : FS) :
    (ensureDirs env cfg fs).2.files = fs.files := by
  have h1 := MkdirAll_files env cfg.WGConfDir fs
  have h2 := MkdirAll_files env cfg.WGClientsDir (MkdirAll env cfg.WGConfDir fs).2
  unfold ensureDirs
  rcases hA : MkdirAll env cfg.WGConfDir fs with ⟨e1, fs1⟩
  rw [hA] at h1 h2
  cases e1 with
  | some e => simpa using h1
  | none =>
    simp only
    rcases hB : MkdirAll env cfg.WGClientsDir fs1 with ⟨e2, fs2⟩
    rw [hB] at h2
    cases e2 <;> simp_all

theorem ensureDirs_of_mem (env : Env) (cfg : Config) (fs : FS)
    (h1 : cfg.WGConfDir ∈ fs.dirs) (h2 : cfg.WGClientsDir ∈ fs.dirs) :
    (ensureDirs env cfg fs).2 = fs := by
  have a := MkdirAll_of_mem env cfg.WGConfDir fs h1
  have b := MkdirAll_of_mem env cfg.WGClientsDir fs h2
  unfold ensureDirs
  rcases hA : MkdirAll env cfg.WGConfDir fs with ⟨e1, fs1⟩
  rw [hA] at a
  simp only at a
  subst a
  cases e1 with
  | some e => rfl
  | none =>
    simp only
    rcases hB : MkdirAll env cfg.WGClientsDir fs1 with ⟨e2, fs2⟩
    rw [hB] at b
    simp only at b
    subst b
    cases e2 <;> rfl

theorem ensureDirs_ok (env : Env) (cfg : Config) (fs : FS) (h : (ensureDirs env cfg fs).1 = none) :
    cfg.WGConfDir ∈ (ensureDirs env cfg fs).2.dirs
      ∧ cfg.WGClientsDir ∈ (ensureDirs env cfg fs).2.dirs := by
  unfold ensureDirs at h ⊢
  have a := MkdirAll_ok env cfg.WGConfDir fs
  rcases hA : MkdirAll env cfg.WGConfDir fs with ⟨e1, fs1⟩
  rw [hA] at a h
  cases e1 with
  | some e => simp at h
  | none =>
    simp only at h ⊢
    have b := MkdirAll_ok env cfg.WGClientsDir fs1
    have c := MkdirAll_dirs_mono env cfg.WGClientsDir cfg.WGConfDir fs1 (a rfl)
    rcases hB : MkdirAll env cfg.WGClientsDir fs1 with ⟨e2, fs2⟩
    rw [hB] at b c h
    cases e2 with
    | some e => simp at h
    | none => exact ⟨c, b rfl⟩

theorem GenerateServerConfig_fs (env : Env) (cfg : Config) (s : Server) (peers : List Peer)
    (w : World) :
    (GenerateServerConfig env cfg s peers w).2.fs
      = match (ensureDirs env cfg w.fs).1 with
        | some _ => (ensureDirs env cfg w.fs).2
        | none => (WriteFile env (serverConfPath cfg)
            (serverContent (resolveExtIF env cfg).1 s peers) (ensureDirs env cfg w.fs).2).2 := by
  unfold GenerateServerConfig
  rcases ensureDirs env cfg w.fs with ⟨e, fs1⟩
  cases e <;> rfl

theorem GenerateServerConfig_err (env : Env) (cfg : Config) (s : Server) (peers : List Peer)
    (w : World) :
    (GenerateServerConfig env cfg s peers w).1
      = match (ensureDirs env cfg w.fs).1 with
        | some e => some e
        | none => (WriteFile env (serverConfPath cfg)
            (serverContent (resolveExtIF env cfg).1 s peers) (ensureDirs env cfg w.fs).2).1 := by
  unfold GenerateServerConfig
  rcases ensureDirs env cfg w.fs with ⟨e, fs1⟩
  cases e <;> rfl

theorem WriteFile_ok (env : Env) (p : Path) (content : String) (fs : FS)
    (h : (WriteFile env p content fs).1 = none) :
    (WriteFile env p content fs).2
      = ⟨fs.dirs, (p, content) :: fs.files.filter (fun e => e.1 ≠ p)⟩ := by
  unfold WriteFile at h ⊢
  by_cases hd : p.dir ∈ fs.dirs
  · simp only [hd, if_true] at h ⊢
    cases he : env.fsErr (.writeFile p) with
    | some e => simp [he] at h
    | none => rfl
  · simp [hd] at h

theorem WriteFile_again (env : Env) (p : Path) (content : String) (dirs : List String)
    (files : List (Path × String)) :
    (WriteFile env p content ⟨dirs, (p, content) :: files.filter (fun e => e.1 ≠ p)⟩).2
      = ⟨dirs, (p, content) :: files.filter (fun e => e.1 ≠ p)⟩ := by
  unfold WriteFile
  by_cases hd : p.dir ∈ dirs
  · simp only [hd, if_true]
    cases env.fsErr (.writeFile p) with
    | some e => rfl
    | none => simp [List.filter_cons, List.filter_filter]
  · simp [hd]

theorem GenerateServerConfig_ok (env : Env) (cfg : Config) (s : Server) (peers : List Peer)
    (w : World) (h : (GenerateServerConfig env cfg s peers w).1 = none) :
    cfg.WGConfDir ∈ (GenerateServerConfig env cfg s peers w).2.fs.dirs
    ∧ cfg.WGClientsDir ∈ (GenerateServerConfig env cfg s peers w).2.fs.dirs
    ∧ (GenerateServerConfig env cfg s peers w).2.fs.files
        = (serverConfPath cfg, serverContent (resolveExtIF env cfg).1 s peers)
            :: w.fs.files.filter (fun e => e.1 ≠ serverConfPath cfg) := by
  rw [GenerateServerConfig_err] at h
  rw [GenerateServerConfig_fs]
  cases he : (ensureDirs env cfg w.fs).1 with
  | some e => simp [he] at h
  | none =>
    simp only [he] at h ⊢
    have hd := ensureDirs_ok env cfg w.fs he
    rw [WriteFile_ok _ _ _ _ h]
    exact ⟨hd.1, hd.2, by simp [ensureDirs_files]⟩

theorem GenerateServerConfig_again (env : Env) (cfg : Config) (s : Server) (peers : List Peer)
    (w : World) (files : List (Path × String))
    (h1 : cfg.WGConfDir ∈ w.fs.dirs) (h2 : cfg.WGClientsDir ∈ w.fs.dirs)
    (h3 : w.fs.files = (serverConfPath cfg, serverContent (resolveExtIF env cfg).1 s peers)
            :: files.filter (fun e => e.1 ≠ serverConfPath cfg)) :
    (GenerateServerConfig env cfg s peers w).2.fs = w.fs := by
  rw [GenerateServerConfig_fs, ensureDirs_of_mem env cfg w.fs h1 h2]
  cases (ensureDirs env cfg w.fs).1 with
  | some e => rfl
  | none =>
    simp only
    have : w.fs = ⟨w.fs.dirs, (serverConfPath cfg, serverContent (resolveExtIF env cfg).1 s peers)
            :: files.filter (fun e => e.1 ≠ serverConfPath cfg)⟩ := by
      rw [← h3]
    rw [this]
    exact WriteFile_again _ _ _ _ _

theorem GeneratePeerConfig_fs (env : Env) (cfg : Config) (s : Server) (p : Peer) (w : World) :
    (GeneratePeerConfig env cfg s p w).2.fs
      = match (ensureDirs env cfg w.fs).1 with
        | some _ => (ensureDirs env cfg w.fs).2
        | none => (WriteFile env (peerConfPath cfg p.UUID) (peerContent s p)
            (ensureDirs env cfg w.fs).2).2 := by
  unfold GeneratePeerConfig
  rcases ensureDirs env cfg w.fs with ⟨e, fs1⟩
  cases e <;> rfl

theorem GeneratePeerConfig_res (env : Env) (cfg : Config) (s : Server) (p : Peer) (w : World) :
    (GeneratePeerConfig env cfg s p w).1
      = match (ensureDirs env cfg w.fs).1 with
        | some e => (none, some e)
        | none => (some (peerConfPath cfg p.UUID), (WriteFile env (peerConfPath cfg p.UUID)
            (peerContent s p) (ensureDirs env cfg w.fs).2).1) := by
  unfold GeneratePeerConfig
  rcases ensureDirs env cfg w.fs with ⟨e, fs1⟩
  cases e <;> rfl

theorem GeneratePeerConfig_ok (env : Env) (cfg : Config) (s : Server) (p : Peer) (w : World)
    (h : (GeneratePeerConfig env cfg s p w).1.2 = none) :
    (GeneratePeerConfig env cfg s p w).1.1 = some (peerConfPath cfg p.UUID)
    ∧ cfg.WGConfDir ∈ (GeneratePeerConfig env cfg s p w).2.fs.dirs
    ∧ cfg.WGClientsDir ∈ (GeneratePeerConfig env cfg s p w).2.fs.dirs
    ∧ (GeneratePeerConfig env cfg s p w).2.fs.files
        = (peerConfPath cfg p.UUID, peerContent s p)
            :: w.fs.files.filter (fun e => e.1 ≠ peerConfPath cfg p.UUID) := by
  rw [GeneratePeerConfig_res] at h
  rw [GeneratePeerConfig_fs, GeneratePeerConfig_res]
  cases he : (ensureDirs env cfg w.fs).1 with
  | some e => simp [he] at h
  | none =>
    simp only [he] at h ⊢
    have hd := ensureDirs_ok env cfg w.fs he
    rw [WriteFile_ok _ _ _ _ h]
    exact ⟨trivial, hd.1, hd.2, by simp [ensureDirs_files]⟩

theorem GeneratePeerConfig_again (env : Env) (cfg : Config) (s : Server) (p : Peer)
    (w : World) (files : List (Path × String))
    (h1 : cfg.WGConfDir ∈ w.fs.dirs) (h2 : cfg.WGClientsDir ∈ w.fs.dirs)
    (h3 : w.fs.files = (peerConfPath cfg p.UUID, peerContent s p)
            :: files.filter (fun e => e.1 ≠ peerConfPath cfg p.UUID)) :
    (GeneratePeerConfig env cfg s p w).2.fs = w.fs := by
  rw [GeneratePeerConfig_fs, ensureDirs_of_mem env cfg w.fs h1 h2]
  cases (ensureDirs env cfg w.fs).1 with
  | some e => rfl
  | none =>
    simp only
    have : w.fs = ⟨w.fs.dirs, (peerConfPath cfg p.UUID, peerContent s p)
            :: files.filter (fun e => e.1 ≠ peerConfPath cfg p.UUID)⟩ := by
      rw [← h3]
    rw [this]
    exact WriteFile_again _ _ _ _ _

/-- C8: generation is idempotent. After a run of `GenerateServerConfig` that reports no error
the server config path holds the render, and a second run for the same server, peers and
resolved external interface (in any surroundings, whatever it reports) leaves the filesystem as
the first run left it. Likewise after a run of `GeneratePeerConfig` that reports no error: it
returns the peer config path, the path holds the peer render, a second run leaves the filesystem
as it is, and returns the same path when it reports no error. -/
theorem generation_idempotent (env1 env2 : Env) (cfg : Config) (s : Server) (peers : List Peer)
    (p : Peer) (w : World) :
    ((resolveExtIF env2 cfg).1 = (resolveExtIF env1 cfg).1 →
      (GenerateServerConfig env1 cfg s peers w).1 = none →
        (GenerateServerConfig env1 cfg s peers w).2.fs.read (serverConfPath cfg)
            = some (serverContent (resolveExtIF env1 cfg).1 s peers)
        ∧ (GenerateServerConfig env2 cfg s peers (GenerateServerConfig env1 cfg s peers w).2).2.fs
            = (GenerateServerConfig env1 cfg s peers w).2.fs)
    ∧ ((GeneratePeerConfig env1 cfg s p w).1.2 = none →
        (GeneratePeerConfig env1 cfg s p w).1.1 = some (peerConfPath cfg p.UUID)
        ∧ (GeneratePeerConfig env1 cfg s p w).2.fs.read (peerConfPath cfg p.UUID)
            = some (peerContent s p)
        ∧ (GeneratePeerConfig env2 cfg s p (GeneratePeerConfig env1 cfg s p w).2).2.fs
            = (GeneratePeerConfig env1 cfg s p w).2.fs
        ∧ ((GeneratePeerConfig env2 cfg s p (GeneratePeerConfig env1 cfg s p w).2).1.2 = none →
            (GeneratePeerConfig env2 cfg s p (GeneratePeerConfig env1 cfg s p w).2).1.1
              = (GeneratePeerConfig env1 cfg s p w).1.1)) := by
  constructor
  · intro hext hok
    obtain ⟨h1, h2, h3⟩ := GenerateServerConfig_ok env1 cfg s peers w hok
    constructor
    · simp [FS.read, h3]
    · rw [← hext] at h3
      exact GenerateServerConfig_again env2 cfg s peers _ w.fs.files h1 h2 h3
  · intro hok
    obtain ⟨h0, h1, h2, h3⟩ := GeneratePeerConfig_ok env1 cfg s p w hok
    refine ⟨h0, by simp [FS.read, h3], ?_, ?_⟩
    · exact GeneratePeerConfig_again env2 cfg s p _ w.fs.files h1 h2 h3
    · intro hok2
      rw [h0]
      exact (GeneratePeerConfig_ok env2 cfg s p _ hok2).1

theorem generation_idempotent_witness :
    (GenerateServerConfig sampleEnv (LoadConfig sampleEnv.getenv) sampleServer [peerV4, peerDual]
        freshWorld).1 = none
    ∧ (GenerateServerConfig sampleEnv (LoadConfig sampleEnv.getenv) sampleServer [peerV4, peerDual]
        (GenerateServerConfig sampleEnv (LoadConfig sampleEnv.getenv) sampleServer
          [peerV4, peerDual] freshWorld).2).2.fs
      = (GenerateServerConfig sampleEnv (LoadConfig sampleEnv.getenv) sampleServer
          [peerV4, peerDual] freshWorld).2.fs
    ∧ (GeneratePeerConfig sampleEnv (LoadConfig sampleEnv.getenv) sampleServer peerDual
        (GeneratePeerConfig sampleEnv (LoadConfig sampleEnv.getenv) sampleServer peerDual
          freshWorld).2).2.fs
      = (GeneratePeerConfig sampleEnv (LoadConfig sampleEnv.getenv) sampleServer peerDual
          freshWorld).2.fs :=
  have h := generation_idempotent sampleEnv sampleEnv (LoadConfig sampleEnv.getenv) sampleServer
    [peerV4, peerDual] peerDual freshWorld
  ⟨by decide, (h.1 rfl (by decide)).2, (h.2 (by decide)).2.2.1⟩

/-! ## Peer deletion (`DeletePeer`) -/

theorem find_filter_ne (p q : Path) (h : q ≠ p) (files : List (Path × String)) :
    (files.filter (fun e => e.1 ≠ p)).find? (fun e => e.1 = q)
      = files.find? (fun e => e.1 = q) := by
  rw [List.find?_filter]
  congr 1
  funext e
  by_cases h2 : e.1 = q
  · simp [h2, h]
  · simp [h2]

theorem find_filter_self (p : Path) (files : List (Path × String)) :
    (files.filter (fun e => e.1 ≠ p)).find? (fun e => e.1 = p) = none := by
  simp [List.find?_eq_none]

theorem Remove_read_self (env : Env) (p : Path) (fs : FS) (h : env.fsErr (.remove p) = none) :
    (Remove env p fs).2.read p = none := by
  unfold Remove
  cases hr : fs.read p with
  | none => simpa using hr
  | some c =>
    simp only [h]
    simp [FS.read, find_filter_self]

theorem Remove_read_other (env : Env) (p q : Path) (fs : FS) (h : q ≠ p) :
    (Remove env p fs).2.read q = fs.read q := by
  unfold Remove
  cases fs.read p with
  | none => rfl
  | some c =>
    cases env.fsErr (.remove p) with
    | some e => rfl
    | none =>
      simp only [FS.read]
      rw [find_filter_ne p q h]

theorem Remove_dirs (env : Env) (p : Path) (fs : FS) : (Remove env p fs).2.dirs = fs.dirs := by
  unfold Remove
  cases fs.read p with
  | none => rfl
  | some c => cases env.fsErr (.remove p) <;> rfl

theorem GenerateServerConfig_no_fault (env : Env) (cfg : Config) (s : Server) (peers : List Peer)
    (w : World) (h1 : env.fsErr (.mkdirAll cfg.WGConfDir) = none)
    (h2 : env.fsErr (.mkdirAll cfg.WGClientsDir) = none)
    (h3 : env.fsErr (.writeFile (serverConfPath cfg)) = none) :
    (GenerateServerConfig env cfg s peers w).1 = none := by
  have e1 : (ensureDirs env cfg w.fs).1 = none := by
    simp [ensureDirs, MkdirAll, h1, h2]
  have hd := (ensureDirs_ok env cfg w.fs e1).1
  rw [GenerateServerConfig_err]
  simp only [e1]
  unfold WriteFile
  have : (serverConfPath cfg).dir = cfg.WGConfDir := rfl
  simp [this, hd, h3]

theorem GenerateServerConfig_read_other (env : Env) (cfg : Config) (s : Server)
    (peers : List Peer) (w : World) (q : Path) (hq : q ≠ serverConfPath cfg) :
    (GenerateServerConfig env cfg s peers w).2.fs.read q = w.fs.read q := by
  rw [GenerateServerConfig_fs]
  have hA : ((ensureDirs env cfg w.fs).2).read q = w.fs.read q := by
    simp [FS.read, ensureDirs_files]
  cases (ensureDirs env cfg w.fs).1 with
  | some e => exact hA
  | none =>
    simp only
    rw [← hA]
    generalize (ensureDirs env cfg w.fs).2 = fs1
    unfold WriteFile
    split
    · cases env.fsErr (.writeFile (serverConfPath cfg)) with
      | some e => rfl
      | none =>
        have hne : serverConfPath cfg ≠ q := fun e => hq e.symm
        simp only [FS.read, List.find?_cons, hne, decide_False]
        rw [find_filter_ne _ q hq]
    · rfl

theorem GenerateServerConfig_servers (env : Env) (cfg : Config) (s : Server) (peers : List Peer)
    (w : World) :
    (GenerateServerConfig env cfg s peers w).2.servers = w.servers
      ∧ (GenerateServerConfig env cfg s peers w).2.peers = w.peers := by
  unfold GenerateServerConfig
  rcases ensureDirs env cfg w.fs with ⟨e, fs1⟩
  cases e <;> exact ⟨rfl, rfl⟩

/-! ## Paths -/

theorem filepathClean_cleanedPaths : ∀ t ∈ cleanedPaths, filepathClean t.1 = t.2 := by
  decide

theorem filepath_documented_values :
    [filepathBase "/foo/bar/baz.js", filepathBase "/foo/bar/baz", filepathBase "/foo/bar/baz/",
        filepathBase "dev.txt", filepathBase "../todo.txt", filepathBase "..", filepathBase ".",
        filepathBase "/", filepathBase ""]
      = ["baz.js", "baz", "baz", "dev.txt", "todo.txt", "..", ".", "/", "."]
    ∧ [filepathDir "/foo/bar/baz.js", filepathDir "/foo/bar/baz", filepathDir "/foo/bar/baz/",
        filepathDir "/dirty//path///", filepathDir "dev.txt", filepathDir "../todo.txt",
        filepathDir "..", filepathDir ".", filepathDir "/", filepathDir ""]
      = ["/foo/bar", "/foo/bar", "/foo/bar/baz", "/dirty/path", ".", "..", ".", ".", "/", "."]
    ∧ [filepathJoin "a" "b", filepathJoin "a" "", filepathJoin "" "b", filepathJoin "" "",
        filepathJoin "a" "b/c", filepathJoin "a/b" "/c", filepathJoin "a/b" "../../../xyz",
        filepathJoin "/" "a"]
      = ["a/b", "a", "b", "", "a/b/c", "a/b/c", "../xyz", "/a"] := by
  decide

theorem shared_directory_paths_coincide :
    peerConfPath (LoadConfig sharedDirEnv.getenv) "awg0"
      ≠ serverConfPath (LoadConfig sharedDirEnv.getenv)
    ∧ (peerConfPath (LoadConfig sharedDirEnv.getenv) "awg0").real
      = (serverConfPath (LoadConfig sharedDirEnv.getenv)).real
    ∧ (LoadConfig sharedDirEnv.getenv).WGClientsDir ≠ (LoadConfig sharedDirEnv.getenv).WGConfDir
    ∧ filepathDir (serverConfPath (LoadConfig sharedDirEnv.getenv)).real
      = filepathClean (LoadConfig sharedDirEnv.getenv).WGClientsDir := by
  decide

theorem WriteFile_mem (env : Env) (p : Path) (content : String) (fs : FS) :
    ∀ e ∈ (WriteFile env p content fs).2.files, e.1 = p ∨ e ∈ fs.files := by
  intro e he
  unfold WriteFile at he
  split at he
  · cases h : env.fsErr (.writeFile p) with
    | some err => simp only [h] at he; exact Or.inr he
    | none =>
      simp only [h, List.mem_cons, List.mem_filter] at he
      rcases he with he | he
      · exact Or.inl (by rw [he])
      · exact Or.inr he.1
  · exact Or.inr he

theorem GenerateServerConfig_mem (env : Env) (cfg : Config) (s : Server) (peers : List Peer)
    (w : World) :
    ∀ e ∈ (GenerateServerConfig env cfg s peers w).2.fs.files,
      e.1 = serverConfPath cfg ∨ e ∈ w.fs.files := by
  intro e he
  rw [GenerateServerConfig_fs] at he
  cases h : (ensureDirs env cfg w.fs).1 with
  | some err =>
    simp only [h, ensureDirs_files] at he
    exact Or.inr he
  | none =>
    simp only [h] at he
    rcases WriteFile_mem _ _ _ _ e he with h1 | h1
    · exact Or.inl h1
    · rw [ensureDirs_files] at h1
      exact Or.inr h1

theorem Remove_mem (env : Env) (p : Path) (fs : FS) :
    ∀ e ∈ (Remove env p fs).2.files, e ∈ fs.files := by
  intro e he
  unfold Remove at he
  cases hr : fs.read p with
  | none => simpa only [hr] using he
  | some c =>
    cases h : env.fsErr (.remove p) with
    | some err => simpa only [hr, h] using he
    | none =>
      simp only [hr, h, List.mem_filter] at he
      exact he.1

theorem Remove_mem_ne (env : Env) (p : Path) (fs : FS) (h : env.fsErr (.remove p) = none) :
    ∀ e ∈ (Remove env p fs).2.files, e.1 ≠ p := by
  intro e he hp
  have hread := Remove_read_self env p fs h
  simp only [FS.read, Option.map_eq_none', List.find?_eq_none, decide_eq_true_eq] at hread
  exact hread e he hp

/-- C6 as amended: when the row deletion of `DeletePeer` does not fail, the handler answers
with success whether or not the peer's config file existed, the peer rows afterwards are the
former rows with another identifier, and the public key of a deleted row is not among the
remaining rows' keys unless some remaining row shares it. When moreover the removal of the
peer's config file is not refused and that file is not the server config file, their paths as
`filepath.Join` returns them being different, then afterwards no file is recorded for the peer's
config path and, on a disk that records a file of that path under the handler's own pair of
directory and name, no file has that path. When the peer listing, both directory creations and
the server config write are not refused, the server config file holds the server render over
the remaining rows. -/
theorem delete_peer_effect (env : Env) (uuid : String) (w : World)
    (hdb : env.dbErr .deletePeer = none) :
    (DeletePeer env uuid w).1.status = 200
    ∧ (DeletePeer env uuid w).2.peers = w.peers.filter (fun p => p.UUID ≠ uuid)
    ∧ (∀ q ∈ (DeletePeer env uuid w).2.peers, q.UUID ≠ uuid)
    ∧ (∀ d ∈ w.peers, d.UUID = uuid →
        (∀ q ∈ w.peers, q.PublicKey = d.PublicKey → q.UUID = uuid) →
        d.PublicKey ∉ (DeletePeer env uuid w).2.peers.map (fun q => q.PublicKey))
    ∧ (env.fsErr (.remove (peerConfPath (LoadConfig env.getenv) uuid)) = none →
        (peerConfPath (LoadConfig env.getenv) uuid).real
          ≠ (serverConfPath (LoadConfig env.getenv)).real →
        (DeletePeer env uuid w).2.fs.read (peerConfPath (LoadConfig env.getenv) uuid) = none
        ∧ ((∀ e ∈ w.fs.files, e.1.real = (peerConfPath (LoadConfig env.getenv) uuid).real →
              e.1 = peerConfPath (LoadConfig env.getenv) uuid) →
            ∀ e ∈ (DeletePeer env uuid w).2.fs.files,
              e.1.real ≠ (peerConfPath (LoadConfig env.getenv) uuid).real))
    ∧ (env.dbErr .listPeers = none →
        env.fsErr (.mkdirAll (LoadConfig env.getenv).WGConfDir) = none →
        env.fsErr (.mkdirAll (LoadConfig env.getenv).WGClientsDir) = none →
        env.fsErr (.writeFile (serverConfPath (LoadConfig env.getenv))) = none →
        (DeletePeer env uuid w).2.fs.read (serverConfPath (LoadConfig env.getenv))
          = some (serverContent (resolveExtIF env (LoadConfig env.getenv)).1 (firstServer env w)
              (w.peers.filter (fun p => p.UUID ≠ uuid)))) := by
  have hst : (DeletePeer env uuid w).1.status = 200 := by
    simp [DeletePeer, hdb]
  have hw : (DeletePeer env uuid w).2
      = (GenerateServerConfig env (LoadConfig env.getenv) (firstServer env w)
          (listPeers env { w with peers := w.peers.filter (fun p => p.UUID ≠ uuid) })
          { w with
            peers := w.peers.filter (fun p => p.UUID ≠ uuid)
            fs := (Remove env (peerConfPath (LoadConfig env.getenv) uuid) w.fs).2 }).2 := by
    simp [DeletePeer, hdb, listPeers, firstServer]
  have hpeers : (DeletePeer env uuid w).2.peers = w.peers.filter (fun p => p.UUID ≠ uuid) := by
    rw [hw, (GenerateServerConfig_servers _ _ _ _ _).2]
  refine ⟨hst, hpeers, ?_, ?_, ?_, ?_⟩
  · intro q hq
    rw [hpeers] at hq
    simpa using (List.mem_filter.1 hq).2
  · intro d _ hd huniq hmem
    rw [hpeers] at hmem
    obtain ⟨q, hq, hk⟩ := List.mem_map.1 hmem
    have hq2 := List.mem_filter.1 hq
    have := huniq q hq2.1 hk
    simp [this] at hq2
  · intro hrm hpath
    have hraw : peerConfPath (LoadConfig env.getenv) uuid ≠ serverConfPath (LoadConfig env.getenv) :=
      fun e => hpath (by rw [e])
    refine ⟨?_, ?_⟩
    · rw [hw, GenerateServerConfig_read_other _ _ _ _ _ _ hraw]
      exact Remove_read_self env _ w.fs hrm
    · intro hkeys e he hreal
      rw [hw] at he
      rcases GenerateServerConfig_mem _ _ _ _ _ e he with h1 | h1
      · rw [h1] at hreal
        exact hpath hreal.symm
      · exact Remove_mem_ne env _ w.fs hrm e h1 (hkeys e (Remove_mem env _ w.fs e h1) hreal)
  · intro hlist hmk1 hmk2 hwr
    have hl : listPeers env { w with peers := w.peers.filter (fun p => p.UUID ≠ uuid) }
        = w.peers.filter (fun p => p.UUID ≠ uuid) := by
      simp [listPeers, hlist]
    rw [hw, hl]
    have hok := GenerateServerConfig_no_fault env (LoadConfig env.getenv) (firstServer env w)
      (w.peers.filter (fun p => p.UUID ≠ uuid))
      { w with
        peers := w.peers.filter (fun p => p.UUID ≠ uuid)
        fs := (Remove env (peerConfPath (LoadConfig env.getenv) uuid) w.fs).2 } hmk1 hmk2 hwr
    have h3 := (GenerateServerConfig_ok _ _ _ _ _ hok).2.2
    unfold FS.read
    rw [h3]
    simp

set_option maxRecDepth 1000000 in
theorem delete_peer_effect_witness :
    ((DeletePeer sampleEnv "7f3e-0001" provisionedWorld).1.status = 200
      ∧ (DeletePeer sampleEnv "7f3e-0001" provisionedWorld).2.peers = [peerDual]
      ∧ (DeletePeer sampleEnv "7f3e-0001" provisionedWorld).2.fs.read
          ⟨DefaultWGClientsDir, "7f3e-0001.conf"⟩ = none
      ∧ (∀ e ∈ (DeletePeer sampleEnv "7f3e-0001" provisionedWorld).2.fs.files,
          e.1.real ≠ "/etc/amnezia/amneziawg/clients/7f3e-0001.conf")
      ∧ (DeletePeer sampleEnv "7f3e-0001" provisionedWorld).2.fs.read
          ⟨DefaultWGConfDir, "awg0.conf"⟩ = some (serverContent "eth0" sampleServer [peerDual]))
    ∧ (provisionedWorld.fs.read ⟨DefaultWGClientsDir, "7f3e-0009.conf"⟩ = none
      ∧ (DeletePeer sampleEnv "7f3e-0009" provisionedWorld).1.status = 200
      ∧ (DeletePeer sampleEnv "7f3e-0009" provisionedWorld).2.fs.read
          ⟨DefaultWGClientsDir, "7f3e-0009.conf"⟩ = none) :=
  have h := delete_peer_effect sampleEnv "7f3e-0001" provisionedWorld rfl
  have g := delete_peer_effect sampleEnv "7f3e-0009" provisionedWorld rfl
  ⟨⟨h.1, h.2.1, (h.2.2.2.2.1 rfl (by decide)).1, (h.2.2.2.2.1 rfl (by decide)).2 (by decide),
      h.2.2.2.2.2 rfl rfl rfl rfl⟩,
    ⟨by decide, g.1, (g.2.2.2.2.1 rfl (by decide)).1⟩⟩

set_option maxRecDepth 1000000 in
/-- C6 fails as stated: on a host that refuses removals and writes, `DeletePeer` still answers
with success and drops the row, while the peer's config file stays on disk and the server config
file keeps the old render with the deleted peer's `[Peer]` block. -/
theorem delete_peer_leaves_files_on_failure :
    (DeletePeer readOnlyEnv "7f3e-0001" provisionedWorld).1.status = 200
    ∧ (DeletePeer readOnlyEnv "7f3e-0001" provisionedWorld).2.peers = [peerDual]
    ∧ (DeletePeer readOnlyEnv "7f3e-0001" provisionedWorld).2.fs.read
        (peerConfPath (LoadConfig readOnlyEnv.getenv) "7f3e-0001")
        = some (peerContent sampleServer peerV4)
    ∧ (DeletePeer readOnlyEnv "7f3e-0001" provisionedWorld).2.fs.read
        (serverConfPath (LoadConfig readOnlyEnv.getenv))
        = some (serverContent "eth0" sampleServer [peerV4, peerDual])
    ∧ "PublicKey = cGVlcjEtcHVibGlj"
        ∈ directives "PublicKey" (serverContent "eth0" sampleServer [peerV4, peerDual]) := by
  decide

/-! ## Server update (`UpdateServer`) -/

theorem find_map_uuid (uuid : String) (f : Server → Server) (hf : ∀ r, (f r).UUID = r.UUID)
    (l : List Server) :
    (l.map f).find? (fun (r : Server) => r.UUID = uuid)
      = (l.find? (fun (r : Server) => r.UUID = uuid)).map f := by
  induction l with
  | nil => rfl
  | cons a as ih =>
    by_cases h : a.UUID = uuid
    · simp [List.find?_cons, hf, h]
    · simp [List.find?_cons, hf, h, ih]

theorem read_none_of_not_mem (fs : FS) (dir name : String) (h : fs.read ⟨dir, name⟩ = none) :
    name ∉ fs.entries dir := by
  intro hm
  simp only [FS.entries, List.mem_map, List.mem_filter, decide_eq_true_eq] at hm
  obtain ⟨e, ⟨he, hd⟩, hn⟩ := hm
  simp only [FS.read, Option.map_eq_none', List.find?_eq_none, decide_eq_true_eq] at h
  apply h e he
  cases e with
  | mk p c =>
    cases p
    simp_all

theorem Remove_entries (env : Env) (dir name : String) (fs : FS)
    (h : env.fsErr (.remove ⟨dir, name⟩) = none) :
    ∀ m ∈ (Remove env ⟨dir, name⟩ fs).2.entries dir, m ∈ fs.entries dir ∧ m ≠ name := by
  intro m hm
  unfold Remove at hm
  cases hr : fs.read ⟨dir, name⟩ with
  | none =>
    simp only [hr] at hm
    refine ⟨hm, ?_⟩
    intro e
    subst e
    exact read_none_of_not_mem fs dir m hr hm
  | some c =>
    simp only [hr, h] at hm
    simp only [FS.entries, List.mem_map, List.mem_filter, decide_eq_true_eq] at hm ⊢
    obtain ⟨e, ⟨⟨he, hne⟩, hd⟩, hn⟩ := hm
    refine ⟨⟨e, ⟨he, hd⟩, hn⟩, ?_⟩
    intro e2
    apply hne
    cases e with
    | mk p c =>
      cases p
      simp_all

theorem removeAll_entries (env : Env) (dir : String) (names : List String) :
    ∀ fs : FS, (∀ n ∈ names, env.fsErr (.remove ⟨dir, n⟩) = none) →
      (∀ m ∈ fs.entries dir, m ∈ names) → (removeAll env dir names fs).entries dir = [] := by
  induction names with
  | nil =>
    intro fs _ h
    cases hE : fs.entries dir with
    | nil => simpa [removeAll] using hE
    | cons a as => exact absurd (h a (by simp [hE])) (by simp)
  | cons n rest ih =>
    intro fs hrm h
    simp only [removeAll]
    apply ih
    · intro k hk
      exact hrm k (by simp [hk])
    · intro m hm
      obtain ⟨h1, h2⟩ := Remove_entries env dir n fs (hrm n (by simp)) m hm
      rcases List.mem_cons.1 (h m h1) with e | e
      · exact absurd e h2
      · exact e

theorem removeAll_mem (env : Env) (dir : String) (names : List String) :
    ∀ fs : FS, ∀ e ∈ (removeAll env dir names fs).files, e ∈ fs.files := by
  induction names with
  | nil => intro fs e he; exact he
  | cons n rest ih =>
    intro fs e he
    exact Remove_mem env _ fs e (ih _ e he)

theorem mem_entries (fs : FS) (e : Path × String) (he : e ∈ fs.files) :
    e.1.name ∈ fs.entries e.1.dir := by
  simp only [FS.entries, List.mem_map, List.mem_filter, decide_eq_true_eq]
  exact ⟨e, ⟨he, rfl⟩, rfl⟩

theorem UpdateServer_success (env : Env) (uuid : String) (req : UpdateServerRequest) (w : World)
    (s : Server) (hs : w.servers.find? (fun (r : Server) => r.UUID = uuid) = some s)
    (hchg : subnetChanged req s = true)
    (h200 : (UpdateServer env uuid (some req) w).1.status = 200) :
    ∃ priv pub evs, GenerateKeyPair env = (.ok (priv, pub), evs)
      ∧ (GenerateServerConfig env (LoadConfig env.getenv)
          (reloadServer env uuid (sweptWorld env uuid req priv pub evs w))
          [] (sweptWorld env uuid req priv pub evs w)).1 = none
      ∧ (UpdateServer env uuid (some req) w).2
          = (GenerateServerConfig env (LoadConfig env.getenv)
              (reloadServer env uuid (sweptWorld env uuid req priv pub evs w))
              [] (sweptWorld env uuid req priv pub evs w)).2 := by
  unfold UpdateServer at h200 ⊢
  cases h1 : env.dbErr .serverByUUID with
  | some e => simp [h1] at h200
  | none =>
    simp only [h1, hs] at h200 ⊢
    cases h2 : req.noUpdates with
    | true => simp [h2] at h200
    | false =>
      simp only [h2, Bool.false_eq_true, if_false] at h200 ⊢
      cases h3 : env.dbErr .updateServer with
      | some e => simp [h3] at h200
      | none =>
        simp only [h3, hchg, if_true] at h200 ⊢
        cases h4 : env.dbErr .clearPeers with
        | some e => simp [h4] at h200
        | none =>
          simp only [h4] at h200 ⊢
          rcases h5 : GenerateKeyPair env with ⟨r, evs⟩
          cases r with
          | error e => simp [h5] at h200
          | ok kp =>
            obtain ⟨priv, pub⟩ := kp
            simp only [h5] at h200 ⊢
            cases h6 : env.dbErr .saveServerKey with
            | some e => simp [h6] at h200
            | none =>
              simp only [h6] at h200 ⊢
              refine ⟨priv, pub, evs, rfl, ?_⟩
              cases h7 : env.dbErr .listPeers <;>
                simp only [listPeers, h7, sweptWorld, updatedServers] at h200 ⊢ <;>
                (split at h200
                 · simp at h200
                 · rename_i heq
                   rw [heq]
                   exact ⟨rfl, rfl⟩)

/-- C7 as amended: when an `UpdateServer` whose requested IPv4 or IPv6 subnet differs from the
stored one answers with success, the listing of the client directory and the removal of each of
its entries are not refused, the server config file does not lie in the client directory (the
directory of its path as `filepath.Join` returns it is not the client directory as
`filepath.Clean` names it), and the re-read of the server row does not fail, then afterwards
there are zero peer rows, no file lies in the client directory, and the server config file holds
the render of the updated row with its newly generated key pair over no peers: the interface
section alone, without a `[Peer]` line. The disk is one that records every file lying in the
client directory under the configured directory and the file's entry name. -/
theorem update_server_subnet_change (env : Env) (uuid : String) (req : UpdateServerRequest)
    (w : World) (s : Server)
    (hs : w.servers.find? (fun (r : Server) => r.UUID = uuid) = some s)
    (hchg : subnetChanged req s = true)
    (h200 : (UpdateServer env uuid (some req) w).1.status = 200)
    (hrd : env.fsErr (.readDir (LoadConfig env.getenv).WGClientsDir) = none)
    (hrm : ∀ n ∈ w.fs.entries (LoadConfig env.getenv).WGClientsDir,
      env.fsErr (.remove ⟨(LoadConfig env.getenv).WGClientsDir, n⟩) = none)
    (hsrv : filepathDir (serverConfPath (LoadConfig env.getenv)).real
      ≠ filepathClean (LoadConfig env.getenv).WGClientsDir)
    (hkeys : ∀ e ∈ w.fs.files,
      filepathDir e.1.real = filepathClean (LoadConfig env.getenv).WGClientsDir →
      e.1 = ⟨(LoadConfig env.getenv).WGClientsDir, filepathBase e.1.real⟩)
    (hreload : env.dbErr .reloadServer = none) :
    ∃ priv pub, (GenerateKeyPair env).1 = .ok (priv, pub)
      ∧ (UpdateServer env uuid (some req) w).2.peers = []
      ∧ (∀ e ∈ (UpdateServer env uuid (some req) w).2.fs.files,
          filepathDir e.1.real ≠ filepathClean (LoadConfig env.getenv).WGClientsDir)
      ∧ (UpdateServer env uuid (some req) w).2.fs.read (serverConfPath (LoadConfig env.getenv))
          = some (serverContent (resolveExtIF env (LoadConfig env.getenv)).1
              { req.apply s with PrivateKey := priv, PublicKey := pub } [])
      ∧ serverContent (resolveExtIF env (LoadConfig env.getenv)).1
            { req.apply s with PrivateKey := priv, PublicKey := pub } []
          = serverInterfaceSection (resolveExtIF env (LoadConfig env.getenv)).1
              { req.apply s with PrivateKey := priv, PublicKey := pub }
      ∧ (oneLine (resolveExtIF env (LoadConfig env.getenv)).1 →
          Server.SingleLine { req.apply s with PrivateKey := priv, PublicKey := pub } →
          (textLines (serverContent (resolveExtIF env (LoadConfig env.getenv)).1
              { req.apply s with PrivateKey := priv, PublicKey := pub } [])).filter
            (fun l => l = "[Peer]") = []) := by
  obtain ⟨priv, pub, evs, hk, hok, hw⟩ := UpdateServer_success env uuid req w s hs hchg h200
  have hs2 : reloadServer env uuid (sweptWorld env uuid req priv pub evs w)
      = { req.apply s with PrivateKey := priv, PublicKey := pub } := by
    have a1 : ∀ r : Server, (if r.UUID = uuid then req.apply r else r).UUID = r.UUID := by
      intro r; split <;> rfl
    have a2 : ∀ r : Server,
        (if r.UUID = uuid then { r with PrivateKey := priv, PublicKey := pub } else r).UUID
          = r.UUID := by
      intro r; split <;> rfl
    have hu : s.UUID = uuid := by
      have := List.find?_some hs
      simpa using this
    have hu2 : (req.apply s).UUID = uuid := hu
    simp only [reloadServer, hreload, sweptWorld, updatedServers]
    rw [find_map_uuid uuid _ a2, find_map_uuid uuid _ a1, hs]
    simp [hu, hu2]
  rw [hs2] at hok hw
  have hgen := GenerateServerConfig_ok _ _ _ _ _ hok
  refine ⟨priv, pub, by rw [hk], ?_, ?_, ?_, rfl, ?_⟩
  · rw [hw, (GenerateServerConfig_servers _ _ _ _ _).2]
    rfl
  · intro e he hdir
    rw [hw] at he
    rcases GenerateServerConfig_mem _ _ _ _ _ e he with h1 | h1
    · rw [h1] at hdir
      exact hsrv hdir
    · simp only [sweptWorld, ReadDir, hrd] at h1
      have hmem := removeAll_mem env _ _ w.fs e h1
      have hd : e.1.dir = (LoadConfig env.getenv).WGClientsDir :=
        congrArg Path.dir (hkeys e hmem hdir)
      have hempty := removeAll_entries env _ _ w.fs hrm (fun m hm => hm)
      have hin := mem_entries _ e h1
      rw [hd, hempty] at hin
      simp at hin
  · rw [hw]
    unfold FS.read
    rw [hgen.2.2]
    simp
  · intro he hsl
    rw [serverContent_sections _ _ [] he hsl (by simp)]
    rfl

set_option maxRecDepth 1000000 in
theorem update_server_subnet_change_witness :
    (UpdateServer sampleEnv "5b1c-0001" (some moveSubnet) provisionedWorld).2.peers = []
    ∧ (∀ e ∈ (UpdateServer sampleEnv "5b1c-0001" (some moveSubnet) provisionedWorld).2.fs.files,
        filepathDir e.1.real ≠ "/etc/amnezia/amneziawg/clients") :=
  match update_server_subnet_change sampleEnv "5b1c-0001" moveSubnet provisionedWorld sampleServer
    rfl (by decide) (by decide) rfl (by decide) (by decide) (by decide) rfl with
  | ⟨_, _, _, h1, h2, _⟩ => ⟨h1, h2⟩

set_option maxRecDepth 1000000 in
/-- C7 fails as stated: when the key tool cannot be started, an `UpdateServer` that changes the
subnet has stored the new subnet, deleted every peer row and swept the client directory, and
then answers with a failure before regenerating anything: the server config file on disk is
still the old render, made from the old row, with its two `[Peer]` sections. -/
theorem update_server_keygen_failure_keeps_old_config :
    subnetChanged moveSubnet sampleServer = true
    ∧ (UpdateServer noKeyToolEnv "5b1c-0001" (some moveSubnet) provisionedWorld).1.status = 500
    ∧ (UpdateServer noKeyToolEnv "5b1c-0001" (some moveSubnet) provisionedWorld).2.servers
        = [{ sampleServer with SubnetV4 := "10.9.0.1/24" }]
    ∧ (UpdateServer noKeyToolEnv "5b1c-0001" (some moveSubnet) provisionedWorld).2.peers = []
    ∧ (UpdateServer noKeyToolEnv "5b1c-0001" (some moveSubnet) provisionedWorld).2.fs.entries
        (LoadConfig noKeyToolEnv.getenv).WGClientsDir = []
    ∧ (UpdateServer noKeyToolEnv "5b1c-0001" (some moveSubnet) provisionedWorld).2.fs.read
        (serverConfPath (LoadConfig noKeyToolEnv.getenv))
        = some (serverContent "eth0" sampleServer [peerV4, peerDual])
    ∧ (textLines (serverContent "eth0" sampleServer [peerV4, peerDual])).filter
        (fun l => l = "[Peer]") = ["[Peer]", "[Peer]"] := by
  decide

/-! ## Interface detection: the fallback -/

theorem scanRoutes_skip (row : String) (rest : List String) (h : ¬ isDefaultRoute row) :
    scanRoutes (row :: rest) = scanRoutes rest := by
  unfold isDefaultRoute at h
  rw [scanRoutes]
  split
  · rename_i f0 f1 tl heq
    rw [heq] at h
    have : f1 ≠ "00000000" := by simpa using h
    simp [this]
  · rfl

theorem scanRoutes_hit (row dev : String) (rest : List String) (h : isDefaultRoute row)
    (h0 : (Fields row)[0]? = some dev) : scanRoutes (row :: rest) = some dev := by
  unfold isDefaultRoute at h
  rw [scanRoutes]
  split
  · rename_i f0 f1 tl heq
    rw [heq] at h h0
    simp at h h0
    simp [h, h0]
  · rename_i hno
    rcases hF : Fields row with _ | ⟨f0, _ | ⟨f1, tl⟩⟩
    · rw [hF] at h; simp at h
    · rw [hF] at h; simp at h
    · exact absurd hF (hno f0 f1 tl)

theorem scanRoutes_first (rows : List String) :
    ∀ (i : Nat) (row dev : String), rows[i]? = some row → isDefaultRoute row →
      (Fields row)[0]? = some dev →
      (∀ j r, j < i → rows[j]? = some r → ¬ isDefaultRoute r) → scanRoutes rows = some dev := by
  induction rows with
  | nil => intro i row dev hi; simp at hi
  | cons r0 rest ih =>
    intro i row dev hi hd h0 hmin
    cases i with
    | zero =>
      simp at hi
      subst hi
      exact scanRoutes_hit _ _ _ hd h0
    | succ k =>
      rw [scanRoutes_skip r0 rest (hmin 0 r0 (Nat.succ_pos k) (by simp))]
      apply ih k row dev (by simpa using hi) hd h0
      intro j r hj hr
      exact hmin (j + 1) r (Nat.succ_lt_succ hj) (by simpa using hr)

theorem scanRoutes_none (rows : List String) (h : ∀ r ∈ rows, ¬ isDefaultRoute r) :
    scanRoutes rows = none := by
  induction rows with
  | nil => rfl
  | cons r0 rest ih =>
    rw [scanRoutes_skip r0 rest (h r0 (by simp))]
    exact ih (fun r hr => h r (by simp [hr]))

theorem scanGo_line (a rest : List Char) (hnl : '\n' ∉ a) :
    ∀ cur, byteLen (cur ++ a) < MaxScanTokenSize →
      scanGo (a ++ '\n' :: rest) cur = String.mk (dropCR (cur ++ a)) :: scanGo rest [] := by
  induction a with
  | nil =>
    intro cur hlen
    simp only [List.append_nil] at hlen
    simp [scanGo, hlen]
  | cons c cs ih =>
    intro cur hlen
    have hc : c ≠ '\n' := fun e => hnl (by simp [e])
    have hcs : '\n' ∉ cs := fun e => hnl (by simp [e])
    have h2 := ih hcs (cur ++ [c]) (by simpa using hlen)
    simpa [scanGo, hc] using h2

theorem unlines_cons (l : String) (ls : List String) :
    (unlines (l :: ls)).data = l.data ++ '\n' :: (unlines ls).data := by
  simp [unlines, String.data_append]

theorem scanGo_unlines (lines : List String)
    (h : ∀ l ∈ lines, oneLine l ∧ byteLen l.data < MaxScanTokenSize) :
    scanGo (unlines lines).data [] = lines.map (fun l => String.mk (dropCR l.data)) := by
  induction lines with
  | nil => rfl
  | cons l ls ih =>
    rw [unlines_cons, scanGo_line l.data _ (h l (by simp)).1 [] (by simpa using (h l (by simp)).2),
      ih (fun m hm => h m (by simp [hm]))]
    simp

theorem DetectDefaultInterface_fallback (env : Env) (table : String)
    (hnone : primaryDevice env = none) (hf : env.openFile "/proc/net/route" = .ok table) :
    (DetectDefaultInterface env).1 = fallbackDevice table := by
  unfold primaryDevice at hnone
  unfold DetectDefaultInterface
  cases herr : (env.exec "ip" ["route", "show", "default"] "").err with
  | some e =>
    simp only [herr, hf, fallbackDevice]
    cases hs : scanGo table.data [] with
    | nil => simp [hs]
    | cons a rest => cases hr : scanRoutes rest <;> simp [hs, hr]
  | none =>
    simp only [herr] at hnone ⊢
    simp only [hnone, hf, fallbackDevice]
    cases hs : scanGo table.data [] with
    | nil => simp [hs]
    | cons a rest => cases hr : scanRoutes rest <;> simp [hs, hr]

theorem isDefaultRoute_device (row : String) (h : isDefaultRoute row) :
    ∃ dev, (Fields row)[0]? = some dev := by
  unfold isDefaultRoute at h
  rcases hF : Fields row with _ | ⟨f0, tl⟩
  · rw [hF] at h; simp at h
  · exact ⟨f0, by simp⟩

theorem scanRoutes_some (rows : List String) :
    ∀ dev, scanRoutes rows = some dev →
      ∃ (i : Nat) (row : String), rows[i]? = some row ∧ isDefaultRoute row
        ∧ (Fields row)[0]? = some dev
        ∧ ∀ (j : Nat) (r : String), j < i → rows[j]? = some r → ¬ isDefaultRoute r := by
  induction rows with
  | nil => intro dev h; simp [scanRoutes] at h
  | cons r0 rest ih =>
    intro dev h
    by_cases hd : isDefaultRoute r0
    · obtain ⟨d0, h0⟩ := isDefaultRoute_device r0 hd
      rw [scanRoutes_hit r0 d0 rest hd h0] at h
      have hdev : d0 = dev := by simpa using h
      subst hdev
      exact ⟨0, r0, by simp, hd, h0, fun j r hj => absurd hj (Nat.not_lt_zero j)⟩
    · rw [scanRoutes_skip r0 rest hd] at h
      obtain ⟨i, row, hi, hrow, h0, hmin⟩ := ih dev h
      refine ⟨i + 1, row, by simpa using hi, hrow, h0, ?_⟩
      intro j r hj hr
      cases j with
      | zero =>
        have : r0 = r := by simpa using hr
        subst this
        exact hd
      | succ k => exact hmin k r (Nat.lt_of_succ_lt_succ hj) (by simpa using hr)

theorem scanRoutes_eq_none (rows : List String) (h : scanRoutes rows = none) :
    ∀ r ∈ rows, ¬ isDefaultRoute r := by
  induction rows with
  | nil => intro r hr; simp at hr
  | cons r0 rest ih =>
    by_cases hd : isDefaultRoute r0
    · obtain ⟨d0, h0⟩ := isDefaultRoute_device r0 hd
      rw [scanRoutes_hit r0 d0 rest hd h0] at h
      simp at h
    · rw [scanRoutes_skip r0 rest hd] at h
      intro r hr
      rcases List.mem_cons.1 hr with e | e
      · rw [e]; exact hd
      · exact ih h r e

theorem DefaultRouteResult_of_scan (rows : List String) (res : Except Error String)
    (hsome : ∀ d, scanRoutes rows = some d → res = .ok d)
    (hnone : scanRoutes rows = none → res = .error "default interface not found") :
    DefaultRouteResult rows res := by
  refine ⟨?_, ?_, ?_, ?_⟩
  · intro i row dev hi hd h0 hmin
    exact hsome dev (scanRoutes_first rows i row dev hi hd h0 hmin)
  · intro hno
    exact hnone (scanRoutes_none rows hno)
  · intro dev hres
    cases hr : scanRoutes rows with
    | none =>
      rw [hnone hr] at hres
      cases hres
    | some d =>
      rw [hsome d hr] at hres
      have hd : d = dev := by injection hres
      rw [← hd]
      exact scanRoutes_some rows d hr
  · intro err hres
    cases hr : scanRoutes rows with
    | none =>
      rw [hnone hr] at hres
      cases hres
      exact ⟨rfl, scanRoutes_eq_none rows hr⟩
    | some d =>
      rw [hsome d hr] at hres
      cases hres

theorem fallbackDevice_rows (table header : String) (rows : List String)
    (h : scanGo table.data [] = header :: rows) : DefaultRouteResult rows (fallbackDevice table) := by
  unfold fallbackDevice
  rw [h]
  apply DefaultRouteResult_of_scan
  · intro d hd
    simp only [hd]
  · intro hn
    simp only [hn]

theorem Fields_dropCR (l : String) : Fields (String.mk (dropCR l.data)) = Fields l := by
  unfold Fields dropCR
  rcases List.eq_nil_or_concat l.data with h | ⟨init, c, h⟩
  · simp [h]
  · rw [h, List.concat_eq_append]
    by_cases hc : c = '\r'
    · subst hc
      have h1 : (init ++ ['\r']).getLast? = some '\r' := by simp
      rw [if_pos h1, List.dropLast_concat, fieldsGo_concat_space '\r' (by decide)]
    · have h1 : ¬ (init ++ [c]).getLast? = some '\r' := by simp [hc]
      rw [if_neg h1]

theorem scanRoutes_dropCR (rows : List String) :
    scanRoutes (rows.map (fun l => String.mk (dropCR l.data))) = scanRoutes rows := by
  induction rows with
  | nil => rfl
  | cons r rest ih =>
    rw [List.map_cons, scanRoutes, scanRoutes, Fields_dropCR, ih]

theorem fallbackDevice_lines (header : String) (rows : List String)
    (h : ∀ l ∈ header :: rows, oneLine l ∧ byteLen l.data < MaxScanTokenSize) :
    DefaultRouteResult rows (fallbackDevice (unlines (header :: rows))) := by
  unfold fallbackDevice
  rw [scanGo_unlines _ h, List.map_cons]
  simp only
  rw [scanRoutes_dropCR]
  apply DefaultRouteResult_of_scan
  · intro d hd
    simp only [hd]
  · intro hn
    simp only [hn]

theorem DetectDefaultInterface_trace (env : Env) (hnone : primaryDevice env = none) :
    (DetectDefaultInterface env).2
      = [Event.exec "ip" ["route", "show", "default"] "", Event.openFile "/proc/net/route"] := by
  unfold primaryDevice at hnone
  unfold DetectDefaultInterface
  cases herr : (env.exec "ip" ["route", "show", "default"] "").err with
  | some e =>
    simp only [herr]
    cases hf : env.openFile "/proc/net/route" with
    | error e2 => simp
    | ok f =>
      cases hs : scanGo f.data [] with
      | nil => simp [hs]
      | cons a rest => cases hr : scanRoutes rest <;> simp [hs, hr]
  | none =>
    simp only [herr] at hnone ⊢
    simp only [hnone]
    cases hf : env.openFile "/proc/net/route" with
    | error e2 => simp
    | ok f =>
      cases hs : scanGo f.data [] with
      | nil => simp [hs]
      | cons a rest => cases hr : scanRoutes rest <;> simp [hs, hr]

theorem DetectDefaultInterface_open_error (env : Env) (err2 : Error)
    (hnone : primaryDevice env = none) (hf : env.openFile "/proc/net/route" = .error err2) :
    (DetectDefaultInterface env).1
      = .error (((env.exec "ip" ["route", "show", "default"] "").err).getD err2) := by
  unfold primaryDevice at hnone
  unfold DetectDefaultInterface
  cases herr : (env.exec "ip" ["route", "show", "default"] "").err with
  | some e => simp [herr, hf]
  | none =>
    simp only [herr] at hnone ⊢
    simp [hnone, hf]

theorem DetectDefaultInterface_primary (env : Env) (d : String) (hd : primaryDevice env = some d) :
    DetectDefaultInterface env = (.ok d, [Event.exec "ip" ["route", "show", "default"] ""]) := by
  unfold primaryDevice at hd
  unfold DetectDefaultInterface
  cases herr : (env.exec "ip" ["route", "show", "default"] "").err with
  | some e => simp [herr] at hd
  | none =>
    simp only [herr] at hd ⊢
    simp [hd]

/-- C11 as amended: the fallback routing-table scan is consulted exactly when the primary
strategy yields no device token, whether its invocation failed or succeeded without a token.
With a token the result is that token and the table is not opened. Without one the table is
opened and decides the result. When it cannot be opened the result is the error of the primary
invocation if it had one, else the error of opening the table. When it can be opened and the
line scanner yields no line, the result is the error `empty /proc/net/route`; otherwise the
first line is skipped as the header and the result is the first column of the first later line
whose second column is `00000000`, and the error `default interface not found` when no later
line is such. For a table that is made of lines shorter than 64 KiB, each ended by a line feed,
the lines that count are these lines: an empty table gives the error `empty /proc/net/route`,
and a table of a header and rows gives the result read off the rows. -/
theorem detect_fallback_when_no_token (env : Env) :
    (∀ d, primaryDevice env = some d →
      DetectDefaultInterface env = (.ok d, [Event.exec "ip" ["route", "show", "default"] ""]))
    ∧ (primaryDevice env = none →
        (DetectDefaultInterface env).2
            = [Event.exec "ip" ["route", "show", "default"] "", Event.openFile "/proc/net/route"]
        ∧ (∀ err2, env.openFile "/proc/net/route" = .error err2 →
            (DetectDefaultInterface env).1
              = .error (((env.exec "ip" ["route", "show", "default"] "").err).getD err2))
        ∧ (∀ table, env.openFile "/proc/net/route" = .ok table →
            (scanGo table.data [] = [] →
              (DetectDefaultInterface env).1 = .error "empty /proc/net/route")
            ∧ (∀ header rows, scanGo table.data [] = header :: rows →
                DefaultRouteResult rows (DetectDefaultInterface env).1))
        ∧ (env.openFile "/proc/net/route" = .ok "" →
            (DetectDefaultInterface env).1 = .error "empty /proc/net/route")
        ∧ (∀ header rows, env.openFile "/proc/net/route" = .ok (unlines (header :: rows)) →
            (∀ l ∈ header :: rows, oneLine l ∧ byteLen l.data < MaxScanTokenSize) →
            DefaultRouteResult rows (DetectDefaultInterface env).1)) := by
  refine ⟨DetectDefaultInterface_primary env, fun hnone => ⟨DetectDefaultInterface_trace env hnone,
    fun err2 hf => DetectDefaultInterface_open_error env err2 hnone hf, fun table hf => ⟨?_, ?_⟩,
    ?_, ?_⟩⟩
  · intro hs
    rw [DetectDefaultInterface_fallback env table hnone hf, fallbackDevice, hs]
  · intro header rows hs
    rw [DetectDefaultInterface_fallback env table hnone hf]
    exact fallbackDevice_rows table header rows hs
  · intro hf
    rw [DetectDefaultInterface_fallback env _ hnone hf]
    rfl
  · intro header rows hf hl
    rw [DetectDefaultInterface_fallback env _ hnone hf]
    exact fallbackDevice_lines header rows hl

set_option maxRecDepth 1000000 in
theorem detect_fallback_when_no_token_witness :
    primaryDevice noRouteEnv = none
    ∧ (noRouteEnv.exec "ip" ["route", "show", "default"] "").err = none
    ∧ (DetectDefaultInterface noRouteEnv).1 = .ok "eth1"
    ∧ DetectDefaultInterface sampleEnv
        = (.ok "eth0", [Event.exec "ip" ["route", "show", "default"] ""]) :=
  ⟨by decide, rfl,
    ((((detect_fallback_when_no_token noRouteEnv).2 (by decide)).2.2.2.2
      "Iface\tDestination\tGateway \tFlags\tRefCnt\tUse\tMetric\tMask\t\tMTU\tWindow\tIRTT"
      ["wlan0\t0000A8C0\t00000000\t0001\t0\t0\t100\t00FFFFFF\t0\t0\t0",
        "eth1\t00000000\t0100A8C0\t0003\t0\t0\t100\t00000000\t0\t0\t0"]
      rfl (by decide)).1 1 _ "eth1" rfl (by decide) (by decide)
      (by
        intro j r hj hr
        have hj0 : j = 0 := by omega
        subst hj0
        simp at hr
        subst hr
        decide)),
    (detect_fallback_when_no_token sampleEnv).1 "eth0" (by decide)⟩

/-- C11 fails as stated: on a host where `ip route show default` succeeds and prints nothing,
`DetectDefaultInterface` opens the kernel routing table and returns the device of its default
route instead of failing, and with another table it returns another result. -/
theorem detect_reads_fallback_after_successful_query :
    (noRouteEnv.exec "ip" ["route", "show", "default"] "").err = none
    ∧ DetectDefaultInterface noRouteEnv
        = (.ok "eth1",
            [Event.exec "ip" ["route", "show", "default"] "", Event.openFile "/proc/net/route"])
    ∧ (DetectDefaultInterface { noRouteEnv with openFile := fun _ => .ok "Iface\n" }).1
        = .error "default interface not found" :=
  ⟨rfl, rfl, rfl⟩

/-! ## Key generation (`GenerateKeyPair`) -/

/-- C12: `GenerateKeyPair` fails exactly when the generation invocation errors, or its output
is empty after trimming, or the derivation invocation (fed the trimmed private key) errors, or
its output is empty after trimming; otherwise it returns the two trimmed outputs, having run the
generation step and then the derivation step with the trimmed private key as input; and when
the generation step fails the derivation step is not run. -/
theorem key_pair_generation (env : Env) :
    ((∃ e, (GenerateKeyPair env).1 = .error e) ↔
      ((genkeyRun env).err ≠ none ∨ TrimSpace (genkeyRun env).stdout = ""
        ∨ (pubkeyRun env (TrimSpace (genkeyRun env).stdout)).err ≠ none
        ∨ TrimSpace (pubkeyRun env (TrimSpace (genkeyRun env).stdout)).stdout = ""))
    ∧ ((genkeyRun env).err = none → TrimSpace (genkeyRun env).stdout ≠ "" →
        (pubkeyRun env (TrimSpace (genkeyRun env).stdout)).err = none →
        TrimSpace (pubkeyRun env (TrimSpace (genkeyRun env).stdout)).stdout ≠ "" →
        GenerateKeyPair env
          = (.ok (TrimSpace (genkeyRun env).stdout,
                TrimSpace (pubkeyRun env (TrimSpace (genkeyRun env).stdout)).stdout),
              [Event.exec (LoadConfig env.getenv).WGMode ["genkey"] "",
                Event.exec (LoadConfig env.getenv).WGMode ["pubkey"]
                  (TrimSpace (genkeyRun env).stdout)]))
    ∧ (((genkeyRun env).err ≠ none ∨ TrimSpace (genkeyRun env).stdout = "") →
        (GenerateKeyPair env).2 = [Event.exec (LoadConfig env.getenv).WGMode ["genkey"] ""])
    ∧ ((genkeyRun env).err = none → TrimSpace (genkeyRun env).stdout ≠ "" →
        (GenerateKeyPair env).2
          = [Event.exec (LoadConfig env.getenv).WGMode ["genkey"] "",
              Event.exec (LoadConfig env.getenv).WGMode ["pubkey"]
                (TrimSpace (genkeyRun env).stdout)]) := by
  unfold GenerateKeyPair genkeyRun pubkeyRun
  simp only
  cases h1 : (env.exec (LoadConfig env.getenv).WGMode ["genkey"] "").err with
  | some e => simp
  | none =>
    by_cases h2 : TrimSpace (env.exec (LoadConfig env.getenv).WGMode ["genkey"] "").stdout = ""
    · simp [h2]
    · simp only [h2, if_false]
      cases h3 : (env.exec (LoadConfig env.getenv).WGMode ["pubkey"]
          (TrimSpace (env.exec (LoadConfig env.getenv).WGMode ["genkey"] "").stdout)).err with
      | some e => simp
      | none =>
        by_cases h4 : TrimSpace (env.exec (LoadConfig env.getenv).WGMode ["pubkey"]
            (TrimSpace (env.exec (LoadConfig env.getenv).WGMode ["genkey"] "").stdout)).stdout = ""
        · simp [h4]
        · simp [h4]

theorem key_pair_generation_witness :
    GenerateKeyPair sampleEnv
        = (.ok ("bmV3LXNlcnZlci1wcml2YXRl", "bmV3LXNlcnZlci1wdWJsaWM="),
            [Event.exec "awg" ["genkey"] "", Event.exec "awg" ["pubkey"] "bmV3LXNlcnZlci1wcml2YXRl"])
    ∧ (GenerateKeyPair noKeyToolEnv).2 = [Event.exec "awg" ["genkey"] ""]
    ∧ ∃ e, (GenerateKeyPair noKeyToolEnv).1 = .error e :=
  ⟨(key_pair_generation sampleEnv).2.1 rfl (by decide) rfl (by decide),
    (key_pair_generation noKeyToolEnv).2.2.1 (Or.inl (by decide)),
    (key_pair_generation noKeyToolEnv).1.2 (Or.inl (by decide))⟩

/-! ## Service output and advisory detection -/

/-- C13 as amended: `runSystemctl` runs `systemctl` with the given arguments once; when the
command fails the returned text is its standard output followed by its standard error, and when
it succeeds the returned text is its standard output alone, the captured standard error being
dropped. `WGShow` likewise answers with the standard output alone on success, and with the
standard output and the standard error as separate fields on failure. -/
theorem systemctl_returned_text (env : Env) (args : List String) (w : World) :
    (runSystemctl env args w).2 = { w with trace := w.trace ++ [Event.exec "systemctl" args ""] }
    ∧ ((env.exec "systemctl" args "").err = none →
        (runSystemctl env args w).1 = ((env.exec "systemctl" args "").stdout, none))
    ∧ (∀ err, (env.exec "systemctl" args "").err = some err →
        (runSystemctl env args w).1
          = ((env.exec "systemctl" args "").stdout ++ (env.exec "systemctl" args "").stderr,
              some err))
    ∧ ((env.exec (LoadConfig env.getenv).WGMode ["show"] "").err = none →
        (WGShow env w).1
          = ⟨200, [("output", (env.exec (LoadConfig env.getenv).WGMode ["show"] "").stdout)]⟩)
    ∧ (∀ err, (env.exec (LoadConfig env.getenv).WGMode ["show"] "").err = some err →
        (WGShow env w).1
          = ⟨500, [("error", err),
              ("output", (env.exec (LoadConfig env.getenv).WGMode ["show"] "").stdout),
              ("stderr", (env.exec (LoadConfig env.getenv).WGMode ["show"] "").stderr)]⟩) := by
  refine ⟨?_, ?_, ?_, ?_, ?_⟩
  · unfold runSystemctl
    cases h : (env.exec "systemctl" args "").err <;> simp [h]
  · intro h
    simp [runSystemctl, h]
  · intro err h
    simp [runSystemctl, h]
  · intro h
    simp [WGShow, h]
  · intro err h
    simp [WGShow, h]

theorem systemctl_returned_text_witness :
    (runSystemctl chattyEnv ["--now", "enable", "awg-quick@awg0"] freshWorld).1 = ("", none)
    ∧ (runSystemctl
        { sampleEnv with exec := fun _ _ _ => ⟨"out;", "err;", some "exit status 1"⟩ }
        ["restart", "awg-quick@awg0"] freshWorld).1 = ("out;err;", some "exit status 1") :=
  ⟨(systemctl_returned_text chattyEnv ["--now", "enable", "awg-quick@awg0"] freshWorld).2.1 rfl,
    ((systemctl_returned_text
      { sampleEnv with exec := fun _ _ _ => ⟨"out;", "err;", some "exit status 1"⟩ }
      ["restart", "awg-quick@awg0"] freshWorld).2.2.1 "exit status 1" rfl).trans (by decide)⟩

/-- C13 fails as stated: when `systemctl` succeeds and writes only to its standard error,
`runSystemctl` returns the empty text, which holds nothing of that standard error, and `WGStart`
passes the empty text on as its output. -/
theorem systemctl_success_drops_stderr :
    (chattyEnv.exec "systemctl" ["--now", "enable", "awg-quick@awg0"] "").err = none
    ∧ (chattyEnv.exec "systemctl" ["--now", "enable", "awg-quick@awg0"] "").stderr ≠ ""
    ∧ (runSystemctl chattyEnv ["--now", "enable", "awg-quick@awg0"] provisionedWorld).1
        = ("", none)
    ∧ stringsContains
        (runSystemctl chattyEnv ["--now", "enable", "awg-quick@awg0"] provisionedWorld).1.1
        (chattyEnv.exec "systemctl" ["--now", "enable", "awg-quick@awg0"] "").stderr = false
    ∧ (WGStart chattyEnv provisionedWorld).1
        = ⟨200, [("message", "wireguard started"), ("output", ""),
            ("service", "awg-quick@awg0")]⟩ := by
  decide

/-- C14: the interface used by `GenerateServerConfig` is the configured override when that is
non-empty, whatever the surroundings and without running detection; otherwise it is the
detected name when detection succeeds, and empty when detection fails. When detection fails and
the two directory creations and the file write are not refused, generation reports no error and
the server config file holds the render for no interface: the head of the interface section,
the blank line, and the peer blocks, with no NAT block. -/
theorem detection_is_advisory (env : Env) (cfg : Config) (s : Server) (peers : List Peer)
    (w : World) :
    (cfg.WGExternalIF ≠ "" →
      resolveExtIF env cfg = (cfg.WGExternalIF, [])
      ∧ ∀ env2 : Env, (resolveExtIF env2 cfg).1 = (resolveExtIF env cfg).1)
    ∧ (cfg.WGExternalIF = "" → ∀ d, (DetectDefaultInterface env).1 = .ok d →
        (resolveExtIF env cfg).1 = d)
    ∧ (cfg.WGExternalIF = "" → ∀ e, (DetectDefaultInterface env).1 = .error e →
        (resolveExtIF env cfg).1 = ""
        ∧ (env.fsErr (.mkdirAll cfg.WGConfDir) = none →
            env.fsErr (.mkdirAll cfg.WGClientsDir) = none →
            env.fsErr (.writeFile (serverConfPath cfg)) = none →
            (GenerateServerConfig env cfg s peers w).1 = none
            ∧ (GenerateServerConfig env cfg s peers w).2.fs.read (serverConfPath cfg)
                = some (serverContent "" s peers)
            ∧ serverContent "" s peers
                = unlines (serverHeadLines s) ++ "\n" ++ peerBlocks peers)) := by
  refine ⟨?_, ?_, ?_⟩
  · intro h
    have : ∀ env' : Env, resolveExtIF env' cfg = (cfg.WGExternalIF, []) := by
      intro env'
      simp [resolveExtIF, h]
    exact ⟨this env, fun env2 => by rw [this env2, this env]⟩
  · intro h d hd
    unfold resolveExtIF
    rcases hD : DetectDefaultInterface env with ⟨r, evs⟩
    rw [hD] at hd
    simp only at hd
    subst hd
    simp [h]
  · intro h e he
    have hres : (resolveExtIF env cfg).1 = "" := by
      unfold resolveExtIF
      rcases hD : DetectDefaultInterface env with ⟨r, evs⟩
      rw [hD] at he
      simp only at he
      subst he
      simp [h]
    refine ⟨hres, ?_⟩
    intro h1 h2 h3
    have hok := GenerateServerConfig_no_fault env cfg s peers w h1 h2 h3
    have hfiles := (GenerateServerConfig_ok env cfg s peers w hok).2.2
    refine ⟨hok, ?_, ?_⟩
    · unfold FS.read
      rw [hfiles, hres]
      simp
    · have hnl : unlines [""] = "\n" := rfl
      have hnil : unlines [] = "" := rfl
      rw [serverContent_eq, serverInterfaceSection_unlines]
      simp only [if_true, unlines_append, hnl, hnil, String.append_assoc, String.empty_append]

theorem detection_is_advisory_witness :
    (DetectDefaultInterface noDetectEnv).1 = .error "exit status 1"
    ∧ (GenerateServerConfig noDetectEnv (LoadConfig noDetectEnv.getenv) sampleServer [peerV4]
        freshWorld).1 = none
    ∧ (GenerateServerConfig noDetectEnv (LoadConfig noDetectEnv.getenv) sampleServer [peerV4]
        freshWorld).2.fs.read (serverConfPath (LoadConfig noDetectEnv.getenv))
        = some (serverContent "" sampleServer [peerV4])
    ∧ resolveExtIF noDetectEnv { LoadConfig noDetectEnv.getenv with WGExternalIF := "ens3" }
        = ("ens3", [])
    ∧ (resolveExtIF sampleEnv (LoadConfig sampleEnv.getenv)).1 = "eth0" :=
  have h := detection_is_advisory noDetectEnv (LoadConfig noDetectEnv.getenv) sampleServer
    [peerV4] freshWorld
  have g := (h.2.2 rfl "exit status 1" rfl).2 rfl rfl rfl
  ⟨rfl, g.1, g.2.1,
    ((detection_is_advisory noDetectEnv { LoadConfig noDetectEnv.getenv with WGExternalIF := "ens3" }
      sampleServer [peerV4] freshWorld).1 (by decide)).1,
    (detection_is_advisory sampleEnv (LoadConfig sampleEnv.getenv) sampleServer [peerV4]
      freshWorld).2.1 rfl "eth0" rfl⟩

/-! ## Address lines and non-interference of the server render -/

/-- C15 as amended: the `[Peer]` block of every peer in the list given to the server render
stands in the render in place and always holds the IPv4 `AllowedIPs` line, carrying the peer's
IPv4 address or the empty value when it has none, followed by an IPv6 `AllowedIPs` line exactly
when the peer has a non-empty IPv6 address. So for a peer with a non-empty IPv4 address the
number of `AllowedIPs` lines is its number of address families and every such line carries a
non-empty address of the peer; for a peer without one the number of lines is one more, the first
line carrying the empty value. The lines read back from the text are for single-line values. -/
theorem server_render_allowed_ips_count (extIF : String) (s : Server) (peers : List Peer)
    (p : Peer) (hp : p ∈ peers) :
    (∃ before after, peers = before ++ p :: after
      ∧ serverContent extIF s peers
          = serverContent extIF s before ++ peerBlock p ++ peerBlocks after)
    ∧ peerBlock p
        = "[Peer]\n" ++ ("PublicKey = " ++ p.PublicKey ++ "\n")
            ++ ("AllowedIPs = " ++ valOrEmpty p.IPv4 ++ "\n")
            ++ (if nonEmptyPtr p.IPv6 then "AllowedIPs = " ++ valOrEmpty p.IPv6 ++ "\n" else "")
            ++ "\n"
    ∧ (oneLine p.PublicKey → oneLine (valOrEmpty p.IPv4) → oneLine (valOrEmpty p.IPv6) →
        directives "AllowedIPs" (peerBlock p)
            = ("AllowedIPs = " ++ valOrEmpty p.IPv4)
                :: (if nonEmptyPtr p.IPv6 then ["AllowedIPs = " ++ valOrEmpty p.IPv6] else [])
          ∧ (nonEmptyPtr p.IPv4 = true →
              (directives "AllowedIPs" (peerBlock p)).length = addressFamilies p
              ∧ ∀ l ∈ directives "AllowedIPs" (peerBlock p), ∃ a, a ≠ ""
                  ∧ l = "AllowedIPs = " ++ a ∧ (p.IPv4 = some a ∨ p.IPv6 = some a))
          ∧ (nonEmptyPtr p.IPv4 = false →
              (directives "AllowedIPs" (peerBlock p)).length = addressFamilies p + 1
              ∧ (directives "AllowedIPs" (peerBlock p)).head? = some "AllowedIPs = ")) := by
  have hne : ∀ v : Option String, nonEmptyPtr v = true → ∃ a, a ≠ "" ∧ v = some a := by
    intro v hv
    cases v with
    | none => simp [nonEmptyPtr] at hv
    | some a => exact ⟨a, by simpa [nonEmptyPtr] using hv, rfl⟩
  have hempty : ∀ v : Option String, nonEmptyPtr v = false → valOrEmpty v = "" := by
    intro v hv
    cases v with
    | none => rfl
    | some a => simpa [nonEmptyPtr, valOrEmpty] using hv
  refine ⟨?_, ?_, ?_⟩
  · obtain ⟨before, after, h⟩ := List.append_of_mem hp
    refine ⟨before, after, h, ?_⟩
    rw [h, serverContent_eq, serverContent_eq, peerBlocks_append]
    simp [peerBlocks, String.append_assoc]
  · unfold peerBlock
    split <;> (apply String.ext; simp)
  · intro hk h4 h6
    have hl : ∀ l ∈ peerBlockLines p, oneLine l :=
      peerBlockLines_oneLine_of p hk h4 (fun _ => h6)
    have hdir : directives "AllowedIPs" (peerBlock p)
        = ("AllowedIPs = " ++ valOrEmpty p.IPv4)
            :: (if nonEmptyPtr p.IPv6 then ["AllowedIPs = " ++ valOrEmpty p.IPv6] else []) := by
      rw [peerBlock_unlines, directives_unlines _ _ hl, peerBlockLines_allowed]
    refine ⟨hdir, ?_, ?_⟩
    · intro hv4
      obtain ⟨a4, ha4, e4⟩ := hne _ hv4
      rw [hdir]
      constructor
      · by_cases hv6 : nonEmptyPtr p.IPv6 = true <;> simp [addressFamilies, hv4, hv6]
      · intro l hl
        rcases List.mem_cons.1 hl with e | e
        · exact ⟨a4, ha4, by rw [e, e4]; rfl, Or.inl e4⟩
        · by_cases hv6 : nonEmptyPtr p.IPv6 = true
          · obtain ⟨a6, ha6, e6⟩ := hne _ hv6
            simp only [hv6, if_true, List.mem_singleton] at e
            exact ⟨a6, ha6, by rw [e, e6]; rfl, Or.inr e6⟩
          · simp [hv6] at e
    · intro hv4
      rw [hdir, hempty _ hv4]
      constructor
      · by_cases hv6 : nonEmptyPtr p.IPv6 = true <;> simp [addressFamilies, hv4, hv6]
      · rfl

theorem server_render_allowed_ips_count_witness :
    directives "AllowedIPs" (peerBlock peerDual)
        = ["AllowedIPs = 10.8.0.3/32", "AllowedIPs = fd42::3/128"]
    ∧ (directives "AllowedIPs" (peerBlock peerDual)).length = addressFamilies peerDual
    ∧ (directives "AllowedIPs" (peerBlock peerNoAddress)).length
        = addressFamilies peerNoAddress + 1 :=
  have h := (server_render_allowed_ips_count "eth0" sampleServer [peerV4, peerDual] peerDual
    (by decide)).2.2 (by decide) (by decide) (by decide)
  have g := (server_render_allowed_ips_count "eth0" sampleServer [peerNoAddress] peerNoAddress
    (by decide)).2.2 (by decide) (by decide) (by decide)
  ⟨h.1, (h.2.1 rfl).1, (g.2.2 rfl).1⟩

set_option maxRecDepth 1000000 in
/-- C15 fails as stated: the block of a peer with an IPv6 address and no IPv4 address holds two
`AllowedIPs` lines for its one address family, the first of them carrying no address; and the
block of a peer with no address holds one such line. -/
theorem server_render_allowed_ips_empty_line :
    addressFamilies peerV6Only = 1
    ∧ directives "AllowedIPs" (peerBlock peerV6Only)
        = ["AllowedIPs = ", "AllowedIPs = fd42::4/128"]
    ∧ addressFamilies peerNoAddress = 0
    ∧ directives "AllowedIPs" (peerBlock peerNoAddress) = ["AllowedIPs = "]
    ∧ serverContent "" sampleServerV4 [peerV6Only]
        = "[Interface]\nAddress = 10.8.0.1/24\nListenPort = 51820\n"
          ++ "PrivateKey = c2VydmVyLXByaXZhdGU=\n\n"
          ++ "[Peer]\nPublicKey = cGVlcjMtcHVibGlj\nAllowedIPs = \nAllowedIPs = fd42::4/128\n\n" := by
  decide

theorem peerBlock_congr (p q : Peer) (hk : p.PublicKey = q.PublicKey) (h4 : p.IPv4 = q.IPv4)
    (h6 : p.IPv6 = q.IPv6) : peerBlock p = peerBlock q := by
  simp [peerBlock, hk, h4, h6]

/-- C17: the server render does not depend on the peers' private keys, identifiers or names:
for two peer lists of equal length that agree position by position on public key, IPv4 and IPv6
address, the renders are the same text, and `GenerateServerConfig` has the same result and
leaves the same world. -/
theorem server_render_ignores_peer_secrets (extIF : String) (s : Server) (ps qs : List Peer)
    (hlen : ps.length = qs.length)
    (hag : ∀ (i : Nat) (p q : Peer), ps[i]? = some p → qs[i]? = some q →
      p.PublicKey = q.PublicKey ∧ p.IPv4 = q.IPv4 ∧ p.IPv6 = q.IPv6) :
    serverContent extIF s ps = serverContent extIF s qs
    ∧ ∀ (env : Env) (cfg : Config) (w : World),
        GenerateServerConfig env cfg s ps w = GenerateServerConfig env cfg s qs w := by
  have hblocks : peerBlocks ps = peerBlocks qs := by
    induction ps generalizing qs with
    | nil =>
      cases qs with
      | nil => rfl
      | cons q qs => simp at hlen
    | cons p ps ih =>
      cases qs with
      | nil => simp at hlen
      | cons q qs =>
        have h0 := hag 0 p q (by simp) (by simp)
        have htail : peerBlocks ps = peerBlocks qs := by
          apply ih qs (by simpa using hlen)
          intro i a b ha hb
          exact hag (i + 1) a b (by simpa using ha) (by simpa using hb)
        simp only [peerBlocks]
        rw [peerBlock_congr p q h0.1 h0.2.1 h0.2.2, htail]
  have hc : ∀ e : String, serverContent e s ps = serverContent e s qs := by
    intro e
    rw [serverContent_eq, serverContent_eq, hblocks]
  refine ⟨hc extIF, ?_⟩
  intro env cfg w
  unfold GenerateServerConfig
  simp only [hc]

theorem server_render_ignores_peer_secrets_witness :
    serverContent "eth0" sampleServer [peerV4, peerDual]
      = serverContent "eth0" sampleServer
          [{ peerV4 with UUID := "0000-aaaa", PrivateKey := "b3RoZXItcHJpdmF0ZQ==", Name := none },
            { peerDual with PrivateKey := "", Name := some "phone" }] :=
  (server_render_ignores_peer_secrets "eth0" sampleServer [peerV4, peerDual]
    [{ peerV4 with UUID := "0000-aaaa", PrivateKey := "b3RoZXItcHJpdmF0ZQ==", Name := none },
      { peerDual with PrivateKey := "", Name := some "phone" }] rfl
    (by
      intro i p q hp hq
      rcases i with _ | _ | i
      · simp at hp hq; subst hp; subst hq; exact ⟨rfl, rfl, rfl⟩
      · simp at hp hq; subst hp; subst hq; exact ⟨rfl, rfl, rfl⟩
      · simp at hp)).1

/-! ## Peer creation (`CreatePeer`) -/

set_option maxRecDepth 1000000 in
/-- C16 at a failing input: before, the one peer's config file is the peer render of the stored
server row; `CreatePeer` finds the server keys missing, stores a new pair, answers with success
and writes the new peer's config from the new row, but leaves the existing peer's file as it
was, so that file is no longer the peer render of the server row now stored. -/
theorem create_peer_leaves_old_configs_stale :
    (∀ p ∈ unkeyedWorld.peers,
      unkeyedWorld.fs.read (peerConfPath (LoadConfig keyToolEnv.getenv) p.UUID)
        = some (peerContent (firstServer keyToolEnv unkeyedWorld) p))
    ∧ (CreatePeer keyToolEnv (some ⟨some "tablet"⟩) unkeyedWorld).1.status = 200
    ∧ (CreatePeer keyToolEnv (some ⟨some "tablet"⟩) unkeyedWorld).2.servers
        = [{ unkeyedServer with PrivateKey := "BwgJCgsMDQ4PEBESExQVFhcYGRobHB0eHyAhIiMkJSY=", PublicKey := "ZWZnaGlqa2xtbm9wcXJzdHV2d3h5ent8fX5/gIGCg4Q=" }]
    ∧ (CreatePeer keyToolEnv (some ⟨some "tablet"⟩) unkeyedWorld).2.peers = [peerV4, createdPeer]
    ∧ (CreatePeer keyToolEnv (some ⟨some "tablet"⟩) unkeyedWorld).2.fs.read
        (peerConfPath (LoadConfig keyToolEnv.getenv) createdPeer.UUID)
        = some (peerContent { unkeyedServer with PrivateKey := "BwgJCgsMDQ4PEBESExQVFhcYGRobHB0eHyAhIiMkJSY=", PublicKey := "ZWZnaGlqa2xtbm9wcXJzdHV2d3h5ent8fX5/gIGCg4Q=" }
            createdPeer)
    ∧ (CreatePeer keyToolEnv (some ⟨some "tablet"⟩) unkeyedWorld).2.fs.read
        (peerConfPath (LoadConfig keyToolEnv.getenv) peerV4.UUID)
        = some (peerContent unkeyedServer peerV4)
    ∧ peerContent unkeyedServer peerV4
        ≠ peerContent { unkeyedServer with PrivateKey := "BwgJCgsMDQ4PEBESExQVFhcYGRobHB0eHyAhIiMkJSY=", PublicKey := "ZWZnaGlqa2xtbm9wcXJzdHV2d3h5ent8fX5/gIGCg4Q=" } peerV4 := by
  decide

end WireguardUI
